import Mathlib

/-!
Verification of the FinanStar tabular statement reclassification engine.

The Python sources (case1.py, case2.py, case7.py) are shallowly embedded:
strings are lists of Unicode code points (`Str`), spreadsheet cell values are
`PyVal`, Python floats are modelled exactly by rationals (the claims under
study only compare parsed amounts against 0 and the 1e-9 epsilon, and compare
parsed decimal values for equality, so the rational model preserves every
verdict), and Python `datetime` values are modelled by proleptic-Gregorian
calendar dates.  The Unicode tables consulted by the sources
(`unicodedata.normalize('NFKD', ...)`, `unicodedata.combining`, `str.lower`,
`str.upper`, `str.strip`) are modelled on the repertoire exercised by the
code and spec: ASCII, the precomposed letters E-acute / e-acute, the
combining-diacritics block U+0300..U+036F, and the whitespace characters
(space, tab, LF, VT, FF, CR, NBSP).  On every other code point the tables
act as the identity, mirroring the fact that such characters are
NFKD-stable, non-combining and case-stable in the inputs the claims range
over.  Python string literals such as "inf", "nan" and underscore digit
groupings, which `float()` would accept, are outside the modelled repertoire
of amount cells.
-/

namespace FinanStar

/-- Strings are lists of Unicode code points. -/
abbrev Str := List Nat

/-- Code points of a Lean string literal, used to write concrete inputs. -/
def strLit (s : String) : Str := s.data.map Char.toNat

/-- Characters removed by Python `str.strip()` (modelled whitespace repertoire):
space, TAB, LF, VT, FF, CR and NBSP. -/
def isPySpace (c : Nat) : Bool :=
  c = 32 || c = 9 || c = 10 || c = 11 || c = 12 || c = 13 || c = 160

/-- ASCII decimal digit, the `[0-9]` character class of the sources. -/
def isDigitN (c : Nat) : Bool := 48 ≤ c && c ≤ 57

/-- Python `str.strip()`: drop modelled whitespace from both ends. -/
def pyStrip (s : Str) : Str :=
  ((s.dropWhile isPySpace).reverse.dropWhile isPySpace).reverse

/-- Value of a list of ASCII digits read in base 10. -/
def digitsToNat (l : Str) : Nat := l.foldl (fun a d => a * 10 + (d - 48)) 0

/-- Python `float(text)` on an unsigned candidate: digits, optionally a single
dot with further digits, at least one digit overall.  Returns `none` exactly
when CPython raises `ValueError`. -/
def pyFloatUnsigned (t : Str) : Option ℚ :=
  let ip := t.takeWhile isDigitN
  let rest := t.drop ip.length
  match rest with
  | [] => if ip = [] then Option.none else Option.some (mkRat (digitsToNat ip) 1)
  | 46 :: frac =>
      if frac.all isDigitN ∧ ¬(ip = [] ∧ frac = []) then
        Option.some (mkRat (digitsToNat ip * 10 ^ frac.length + digitsToNat frac) (10 ^ frac.length))
      else Option.none
  | _ => Option.none

/-- Python `float(text)`: optional leading minus sign, then an unsigned
decimal literal. -/
def pyFloatOfStr (t : Str) : Option ℚ :=
  match t with
  | 45 :: rest => (pyFloatUnsigned rest).map (fun q => -q)
  | _ => pyFloatUnsigned t

/-- Proleptic Gregorian calendar date, the model of Python `datetime.date`
(and of the date component of `datetime.datetime`). -/
structure CivilDate where
  year : ℤ
  month : ℤ
  day : ℤ
deriving DecidableEq, Repr

/-- A spreadsheet cell value as seen by the Python code: `None`, a string, a
numeric value (int/float, modelled exactly by a rational) or a native
date/datetime. -/
inductive PyVal where
  | none
  | str (s : Str)
  | num (q : ℚ)
  | dateVal (d : CivilDate)
deriving DecidableEq, Repr

/-- Number of code points before the last occurrence of `c` (the slice
`text[:text.rfind(c)]`); meaningful when `c` occurs in `t`. -/
def beforeLast (c : Nat) (t : Str) : Str :=
  ((t.reverse.dropWhile (fun x => x ≠ c)).drop 1).reverse

/-- The slice `text[text.rfind(c)+1:]`; meaningful when `c` occurs in `t`. -/
def afterLast (c : Nat) (t : Str) : Str :=
  (t.reverse.takeWhile (fun x => x ≠ c)).reverse

/-- Separator disambiguation of `case1._parse_decimal` (the if/elif chain on
comma and dot counts), translated clause by clause. -/
def sepNormalize (t : Str) : Str :=
  let nc := t.count 44
  let nd := t.count 46
  if 1 < nc ∧ nd = 0 then
    (beforeLast 44 t).filter (fun x => x ≠ 44) ++ 46 :: afterLast 44 t
  else if 1 < nd ∧ nc = 0 then
    (beforeLast 46 t).filter (fun x => x ≠ 46) ++ 46 :: afterLast 46 t
  else if nc = 1 ∧ nd = 0 then
    t.map (fun c => if c = 44 then 46 else c)
  else if nd = 1 ∧ nc = 1 then
    if t.findIdx (fun x => x = 46) < t.findIdx (fun x => x = 44) then
      (t.filter (fun x => x ≠ 46)).map (fun c => if c = 44 then 46 else c)
    else
      t.filter (fun x => x ≠ 44)
  else t

/-- String branch of `case1._parse_decimal`: strip, reject placeholders,
drop NBSP and spaces, keep only `[0-9,.-]`, disambiguate separators, then
`float(...)` with `ValueError` mapped to `None`. -/
def parse_decimal_str (v : Str) : Option ℚ :=
  let text := pyStrip v
  if text = [] ∨ text = [45] ∨ text = [45, 45] then Option.none
  else
    let t1 := text.filter (fun c => c ≠ 160 ∧ c ≠ 32)
    let t2 := t1.filter (fun c => isDigitN c ∨ c = 44 ∨ c = 46 ∨ c = 45)
    if t2 = [] then Option.none
    else pyFloatOfStr (sepNormalize t2)

/-- `case1._parse_decimal` (case1.py lines 1022-1056). -/
def parse_decimal : PyVal → Option ℚ
  | PyVal.none => Option.none
  | PyVal.num q => Option.some q
  | PyVal.dateVal _ => Option.none
  | PyVal.str v => parse_decimal_str v

/-- Gregorian civil date from a count of days since 1970-01-01
(Howard Hinnant's `civil_from_days`, the arithmetic underlying Python's
`datetime` + `timedelta` day addition). -/
def civilFromDays (z0 : ℤ) : CivilDate :=
  let z := z0 + 719468
  let era := Int.fdiv z 146097
  let doe := z - era * 146097
  let yoe := Int.fdiv (doe - Int.fdiv doe 1461 + Int.fdiv doe 36524 - Int.fdiv doe 146096) 365
  let y := yoe + era * 400
  let doy := doe - (365 * yoe + Int.fdiv yoe 4 - Int.fdiv yoe 100)
  let mp := Int.fdiv (5 * doy + 2) 153
  let d := doy - Int.fdiv (153 * mp + 2) 5 + 1
  let m := mp + (if mp < 10 then 3 else -9)
  ⟨y + (if m ≤ 2 then 1 else 0), m, d⟩

/-- `datetime(1899, 12, 30) + timedelta(days=serial)`, projected to its date
component: 1899-12-30 is 25569 days before the Unix epoch, and a fractional
part of the serial only contributes a time of day, so the date is taken at
the floor. -/
def dateFromSerial (q : ℚ) : CivilDate := civilFromDays (⌊q⌋ - 25569)

/-- Leap year test of the Gregorian calendar (as used by Python `datetime`). -/
def isLeapYear (y : ℤ) : Bool :=
  y % 4 = 0 && (y % 100 ≠ 0 || y % 400 = 0)

/-- Number of days of month `m` of year `y`. -/
def daysInMonth (y m : ℤ) : ℤ :=
  if m = 2 then (if isLeapYear y then 29 else 28)
  else if m = 4 ∨ m = 6 ∨ m = 9 ∨ m = 11 then 30
  else 31

/-- Python `str.split(sep)` restricted to a single separator character. -/
def splitOnChar (sep : Nat) (s : Str) : List Str :=
  s.foldr
    (fun c acc =>
      if c = sep then [] :: acc
      else
        match acc with
        | [] => [[c]]
        | g :: gs => (c :: g) :: gs)
    [[]]

/-- CPython `strptime` field `%d` / `%m` (regex `3[01]|[12]\d|0[1-9]|[1-9]`,
resp. `1[0-2]|0[1-9]|[1-9]`): one or two ASCII digits whose value lies in
`1..bound`. -/
def parseTwoDigit (bound : Nat) (g : Str) : Option Nat :=
  if g.all isDigitN ∧ (g.length = 1 ∨ g.length = 2) then
    let v := digitsToNat g
    if 1 ≤ v ∧ v ≤ bound then Option.some v else Option.none
  else Option.none

/-- CPython `strptime` field `%Y`: exactly four ASCII digits. -/
def parseYear4 (g : Str) : Option Nat :=
  if g.all isDigitN ∧ g.length = 4 then Option.some (digitsToNat g) else Option.none

/-- `datetime(year, month, day)` validity check performed after the strptime
regex match: the year must be at least 1 and the day must exist in the month
(`ValueError` otherwise, modelled as `none`). -/
def mkDatetime (y m d : Nat) : Option CivilDate :=
  if 1 ≤ y ∧ (d : ℤ) ≤ daysInMonth y m then Option.some ⟨y, m, d⟩ else Option.none

/-- `datetime.strptime(cleaned, f"%d{sep}%m{sep}%Y")`. -/
def parse_dmY (sep : Nat) (s : Str) : Option CivilDate :=
  match splitOnChar sep s with
  | [dg, mg, yg] =>
      match parseTwoDigit 31 dg, parseTwoDigit 12 mg, parseYear4 yg with
      | Option.some d, Option.some m, Option.some y => mkDatetime y m d
      | _, _, _ => Option.none
  | _ => Option.none

/-- `datetime.strptime(cleaned, f"%Y{sep}%m{sep}%d")`. -/
def parse_Ymd (sep : Nat) (s : Str) : Option CivilDate :=
  match splitOnChar sep s with
  | [yg, mg, dg] =>
      match parseYear4 yg, parseTwoDigit 12 mg, parseTwoDigit 31 dg with
      | Option.some y, Option.some m, Option.some d => mkDatetime y m d
      | _, _, _ => Option.none
  | _ => Option.none

/-- The `('%d/%m/%Y', '%d-%m-%Y', '%Y-%m-%d')` strptime cascade shared by
`case1._parse_date_value` and `case2._parse_date_from_value`. -/
def strptimeCascade (c : Str) : Option CivilDate :=
  match parse_dmY 47 c with
  | Option.some d => Option.some d
  | Option.none =>
      match parse_dmY 45 c with
      | Option.some d => Option.some d
      | Option.none => parse_Ymd 45 c

/-- `case1._parse_date_value` (case1.py lines 1490-1514): native dates pass
through; a numeric spreadsheet serial is converted from the 1899-12-30 epoch
and accepted only when the resulting year lies in 1900..9999 (any
`OverflowError` of the conversion is swallowed by the same `except` and
likewise yields `None`); strings go through the strptime cascade. -/
def parse_date_value : PyVal → Option CivilDate
  | PyVal.dateVal d => Option.some d
  | PyVal.num q =>
      let c := dateFromSerial q
      if 1900 ≤ c.year ∧ c.year ≤ 9999 then Option.some c else Option.none
  | PyVal.str v =>
      let cleaned := pyStrip v
      if cleaned = [] then Option.none else strptimeCascade cleaned
  | PyVal.none => Option.none

/-- Exceptions of the case2 pipeline that the claims distinguish:
`DateRangeNotFoundError` (case2.py line 14) and an uncaught Python
`OverflowError`. -/
inductive PyExc where
  | overflowError
  | dateRangeNotFound
deriving DecidableEq, Repr

/-- The regex `-?\d+(\.\d+)?` fullmatch of case2.py line 636 applied after
`cleaned.replace(',', '.')`, together with `float(...)` of the match. -/
def numericCandidateUnsigned (t : Str) : Option ℚ :=
  let ip := t.takeWhile isDigitN
  if ip = [] then Option.none
  else
    match t.drop ip.length with
    | [] => Option.some (mkRat (digitsToNat ip) 1)
    | 46 :: frac =>
        if frac ≠ [] ∧ frac.all isDigitN then
          Option.some (mkRat (digitsToNat ip * 10 ^ frac.length + digitsToNat frac) (10 ^ frac.length))
        else Option.none
    | _ => Option.none

/-- Signed version of `numericCandidateUnsigned` (the leading `-?`). -/
def numericCandidate (t : Str) : Option ℚ :=
  let u := t.map (fun c => if c = 44 then 46 else c)
  match u with
  | 45 :: rest => (numericCandidateUnsigned rest).map (fun q => -q)
  | _ => numericCandidateUnsigned u

/-- `case2._parse_date_from_value` (case2.py lines 609-644).  The numeric
branch guards `value > 0` but has no year bound: its `except Exception`
swallows the overflow, giving `None`.  The numeric-string fallback guards
only against `ValueError`, so a positive textual serial whose date would
pass the year 9999 raises an uncaught `OverflowError` (modelled as
`.error .overflowError`). -/
def parse_date_from_value : PyVal → Except PyExc (Option CivilDate)
  | PyVal.dateVal d => Except.ok (Option.some d)
  | PyVal.num q =>
      if 0 < q ∧ (dateFromSerial q).year ≤ 9999 then
        Except.ok (Option.some (dateFromSerial q))
      else Except.ok Option.none
  | PyVal.str v =>
      let cleaned := pyStrip v
      if cleaned = [] then Except.ok Option.none
      else
        match strptimeCascade cleaned with
        | Option.some d => Except.ok (Option.some d)
        | Option.none =>
            match numericCandidate cleaned with
            | Option.some serial =>
                if 0 < serial then
                  if (dateFromSerial serial).year ≤ 9999 then
                    Except.ok (Option.some (dateFromSerial serial))
                  else Except.error PyExc.overflowError
                else Except.ok Option.none
            | Option.none => Except.ok Option.none
  | PyVal.none => Except.ok Option.none

/-- Strict `<` on dates (Python `datetime` comparison, date component). -/
def dateLT (a b : CivilDate) : Bool :=
  a.year < b.year ||
    (a.year = b.year && (a.month < b.month || (a.month = b.month && a.day < b.day)))

/-- Non-strict `≤` on dates (`start.date() <= d <= end.date()`). -/
def dateLE (a b : CivilDate) : Bool :=
  a.year < b.year ||
    (a.year = b.year && (a.month < b.month || (a.month = b.month && a.day ≤ b.day)))

/-- The row scan of `case1._filter_rows_by_date_range` (case1.py lines
1240-1249) over the date-column values of the data region: rows whose date
does not parse are kept and not counted; parsable in-range rows are kept and
counted; parsable out-of-range rows are collected for deletion.  Returns the
surviving rows and the `rows_in_range` counter. -/
def case1FilterLoop (lo hi : CivilDate) : List PyVal → List PyVal × Nat
  | [] => ([], 0)
  | v :: rest =>
      let r := case1FilterLoop lo hi rest
      match parse_date_value v with
      | Option.none => (v :: r.1, r.2)
      | Option.some d =>
          if dateLE lo d && dateLE d hi then (v :: r.1, r.2 + 1) else r

/-- `case1._filter_rows_by_date_range` (case1.py lines 1207-1269) on the
located data region, modelled over the date-column cell values.  The result
is the list of surviving rows together with the flag "the zero-rows-in-range
warning was logged".  The function has no raise statement, hence the result
type's error component is never used; it is shared with the case2 variant so
that the two outcomes are comparable. -/
def case1_filter_rows_by_date_range (range? : Option (CivilDate × CivilDate))
    (rows : List PyVal) : Except PyExc (List PyVal × Bool) :=
  match range? with
  | Option.none => Except.ok (rows, false)
  | Option.some (a, b) =>
      let se := if dateLT b a then (b, a) else (a, b)
      let r := case1FilterLoop se.1 se.2 rows
      Except.ok (r.1, decide (r.2 = 0))

/-- The row scan of `case2._filter_rows_by_date_range` (case2.py lines
475-487).  Identical to the case1 scan except that it parses with
`case2._parse_date_from_value`, whose numeric-string fallback can raise an
uncaught `OverflowError`, which aborts the whole loop. -/
def case2FilterLoop (lo hi : CivilDate) : List PyVal → Except PyExc (List PyVal × Nat)
  | [] => Except.ok ([], 0)
  | v :: rest =>
      match parse_date_from_value v with
      | Except.error e => Except.error e
      | Except.ok od =>
          match case2FilterLoop lo hi rest with
          | Except.error e => Except.error e
          | Except.ok r =>
              match od with
              | Option.none => Except.ok (v :: r.1, r.2)
              | Option.some d =>
                  if dateLE lo d && dateLE d hi then Except.ok (v :: r.1, r.2 + 1)
                  else Except.ok r

/-- `case2._filter_rows_by_date_range` (case2.py lines 442-503): as case1,
but when `rows_in_range == 0` it raises `DateRangeNotFoundError` instead of
logging a warning. -/
def case2_filter_rows_by_date_range (range? : Option (CivilDate × CivilDate))
    (rows : List PyVal) : Except PyExc (List PyVal) :=
  match range? with
  | Option.none => Except.ok rows
  | Option.some (a, b) =>
      let se := if dateLT b a then (b, a) else (a, b)
      match case2FilterLoop se.1 se.2 rows with
      | Except.error e => Except.error e
      | Except.ok r =>
          if r.2 = 0 then Except.error PyExc.dateRangeNotFound else Except.ok r.1

/-- `unicodedata.normalize('NFKD', ...)` per code point, on the modelled
repertoire: E-acute and e-acute decompose into the base letter followed by
U+0301 COMBINING ACUTE ACCENT; every other modelled code point is
NFKD-stable. -/
def nfkdChar (c : Nat) : List Nat :=
  if c = 201 then [69, 769] else if c = 233 then [101, 769] else [c]

/-- `unicodedata.combining(ch) != 0` on the modelled repertoire: the
combining-diacritics block U+0300..U+036F. -/
def isCombining (c : Nat) : Bool := 768 ≤ c && c ≤ 879

/-- Python `str.lower()` per code point on the modelled repertoire (ASCII). -/
def pyLowerChar (c : Nat) : Nat := if 65 ≤ c ∧ c ≤ 90 then c + 32 else c

/-- Python `str.upper()` per code point on the modelled repertoire (ASCII). -/
def pyUpperChar (c : Nat) : Nat := if 97 ≤ c ∧ c ≤ 122 then c - 32 else c

/-- NFKD-decompose, drop combining marks, lowercase: the shared core of both
`_normalize_text` variants. -/
def normalizeCore (s : Str) : Str :=
  ((s.flatMap nfkdChar).filter (fun c => !isCombining c)).map pyLowerChar

/-- String branch of `case1._normalize_text` (case1.py lines 1160-1166):
`.lower().strip()` after removing combining marks. -/
def normalize_text_case1_str (s : Str) : Str := pyStrip (normalizeCore s)

/-- `case1._normalize_text`: non-string input yields the empty string. -/
def normalize_text_case1 : PyVal → Str
  | PyVal.str s => normalize_text_case1_str s
  | _ => []

/-- String branch of `case7._normalize_text` (case7.py lines 983-990):
`.lower().replace(' ', '')` after removing combining marks (note: all spaces
removed, no strip). -/
def normalize_text_case7_str (s : Str) : Str :=
  (normalizeCore s).filter (fun c => c ≠ 32)

/-- `case7._normalize_text`: non-string input yields the empty string. -/
def normalize_text_case7 : PyVal → Str
  | PyVal.str s => normalize_text_case7_str s
  | _ => []

/-- Index of the last occurrence of `x` in `t` (`str.rfind`); meaningful when
`x` occurs in `t`. -/
def rfindIdx (x : Nat) (t : Str) : Nat :=
  t.length - 1 - t.reverse.findIdx (fun a => a = x)

/-- Separator handling of `case7._to_number` (case7.py lines 1031-1041):
with both separators present the later one is decimal; a comma-only string
has all commas turned into dots; otherwise the string is unchanged. -/
def toNumberSeps (c : Str) : Str :=
  if c.contains 44 && c.contains 46 then
    if rfindIdx 46 c < rfindIdx 44 c then
      (c.filter (fun x => x ≠ 46)).map (fun x => if x = 44 then 46 else x)
    else c.filter (fun x => x ≠ 44)
  else if c.contains 44 then c.map (fun x => if x = 44 then 46 else x)
  else c

/-- String branch of `case7._to_number`, split at the final `float(...)`:
`none` models the `ValueError` branch (and the empty-after-strip early
return), which the caller turns into `0.0`. -/
def to_number_str (v : Str) : Option ℚ :=
  let c := pyStrip v
  if c = [] then Option.none
  else pyFloatOfStr (toNumberSeps (c.filter (fun x => x ≠ 32)))

/-- `case7._to_number` (case7.py lines 1022-1046): total, never `None`;
every unparsable value collapses to `0.0`. -/
def to_number : PyVal → ℚ
  | PyVal.none => 0
  | PyVal.num q => q
  | PyVal.dateVal _ => 0
  | PyVal.str v => (to_number_str v).getD 0

/-- Python substring test `p in s`. -/
def isSubstr (p s : Str) : Bool :=
  (List.range (s.length + 1)).any (fun i => p.isPrefixOf (s.drop i))

/-- `case7._match_codification` (case7.py lines 584-593): first rule whose
non-empty search text occurs in the normalized description wins; no match
yields the empty string. -/
def match_codification (nd : Str) : List (Str × Str) → Str
  | [] => []
  | (search, code) :: rest =>
      if search ≠ [] ∧ code ≠ [] ∧ isSubstr search nd then code
      else match_codification nd rest

/-- A case7 data row restricted to the fields the classification passes
read: description, debit, credit (raw cell values) and the code tag.  The
code field carries `''` where the Python dict holds `None` or lacks the key —
every consumer in case7 reads it through `row_data.get('Código') or ''`, so
the two are observationally equal. -/
structure Row7 where
  descr : PyVal
  debit : PyVal
  credit : PyVal
  code : Str
deriving DecidableEq, Repr

/-- The configured `codificationRules.credit` / `.debit` rule lists. -/
structure CodificationRules where
  credit : List (Str × Str)
  debit : List (Str × Str)
deriving DecidableEq, Repr

/-- `case7._determine_codification` (case7.py lines 555-582): non-string or
normalization-empty descriptions give no code; credit rules are consulted
when credit>0, then debit rules when debit>0 and no credit rule matched. -/
def determine_codification (r : Row7) (rules : CodificationRules) : Str :=
  match r.descr with
  | PyVal.str s =>
      let nd := normalize_text_case7_str s
      if nd = [] then []
      else
        let ca := to_number r.credit
        let da := to_number r.debit
        let c1 := if 0 < ca then match_codification nd rules.credit else []
        if c1 ≠ [] then c1
        else if 0 < da then match_codification nd rules.debit else []
  | _ => []

/-- Per-row body of `case7._assign_codes_by_description` (case7.py lines
519-525): a non-empty determined code is written into the row; otherwise the
row is left as is (the source's else branch merely rewrites a `None`/missing
code as `''`, which the model's code field already represents). -/
def assign_codes_by_description_row (rules : CodificationRules) (r : Row7) : Row7 :=
  let code := determine_codification r rules
  if code ≠ [] then { r with code := code } else r

/-- The `1e-9` tolerance of the sign tests. -/
def EPSILON : ℚ := mkRat 1 1000000000

/-- `str(row_data.get('Código') or '').strip().upper()`. -/
def codeKeyOf (c : Str) : Str := (pyStrip c).map pyUpperChar

/-- Per-row body of `case7._update_codes_for_positive_debits` (case7.py
lines 621-638): skip unless debit>1e-9, skip if credit>1e-9, skip an empty
current code, then remap through the configured dictionary when the new code
is non-empty and differs. -/
def update_codes_for_positive_debits_row (pmap : List (Str × Str)) (r : Row7) : Row7 :=
  let da := to_number r.debit
  let ca := to_number r.credit
  if da ≤ EPSILON then r
  else if EPSILON < ca then r
  else
    let cur := codeKeyOf r.code
    if cur = [] then r
    else
      match List.lookup cur pmap with
      | Option.some nc => if nc ≠ [] ∧ cur ≠ nc then { r with code := nc } else r
      | Option.none => r

/-- Per-row body of `case7._update_codes_for_non_negative_credits` (case7.py
lines 659-676), the mirror image for credits. -/
def update_codes_for_non_negative_credits_row (cmap : List (Str × Str)) (r : Row7) : Row7 :=
  let ca := to_number r.credit
  let da := to_number r.debit
  if ca ≤ EPSILON then r
  else if EPSILON < da then r
  else
    let cur := codeKeyOf r.code
    if cur = [] then r
    else
      match List.lookup cur cmap with
      | Option.some nc => if nc ≠ [] ∧ cur ≠ nc then { r with code := nc } else r
      | Option.none => r

/-- A case1 worksheet row restricted to the cells its sign-exclusive remap
reads: the code, debit and credit cell values. -/
structure Cells1 where
  code : PyVal
  debit : PyVal
  credit : PyVal
deriving DecidableEq, Repr

/-- `case1._is_positive` (case1.py lines 1017-1020). -/
def is_positive : Option ℚ → Bool
  | Option.none => false
  | Option.some a => EPSILON < a

/-- `str(code_cell.value).strip().upper()` for the modelled repertoire of
code cells (text or empty). -/
def cellCodeKey : PyVal → Str
  | PyVal.str s => (pyStrip s).map pyUpperChar
  | _ => []

/-- Per-row body of `case1._update_codes_for_positive_debits` (case1.py
lines 748-772): amounts go through `_parse_decimal`/`_is_positive`, the
`None`/`''` code guard, then the dictionary remap (the guard
`code_cell.value != new_code` compares the raw cell value). -/
def update_codes_for_positive_debits_cells (pmap : List (Str × Str)) (r : Cells1) : Cells1 :=
  let da := parse_decimal r.debit
  let ca := parse_decimal r.credit
  if !is_positive da then r
  else if is_positive ca then r
  else if r.code = PyVal.none ∨ r.code = PyVal.str [] then r
  else
    let cur := cellCodeKey r.code
    match List.lookup cur pmap with
    | Option.some nc => if nc ≠ [] ∧ r.code ≠ PyVal.str nc then { r with code := PyVal.str nc } else r
    | Option.none => r

/-- Per-row body of `case1._update_codes_for_non_negative_credits` (case1.py
lines 803-827), the mirror image for credits. -/
def update_codes_for_non_negative_credits_cells (cmap : List (Str × Str)) (r : Cells1) : Cells1 :=
  let ca := parse_decimal r.credit
  let da := parse_decimal r.debit
  if !is_positive ca then r
  else if is_positive da then r
  else if r.code = PyVal.none ∨ r.code = PyVal.str [] then r
  else
    let cur := cellCodeKey r.code
    match List.lookup cur cmap with
    | Option.some nc => if nc ≠ [] ∧ r.code ≠ PyVal.str nc then { r with code := PyVal.str nc } else r
    | Option.none => r

/-- A data-region row restricted to the three columns read and written by
`case1._process_duplicate_references`: reference, code, description.
Modelled repertoire: these cells hold text or are empty (`none`). -/
structure WRow where
  ref : Option Str
  code : Option Str
  descr : Option Str
deriving DecidableEq, Repr

instance : Inhabited WRow := ⟨⟨Option.none, Option.none, Option.none⟩⟩

/-- The data region of a worksheet: `n` rows (row 16 of the sheet is index
0), addressed by index; cell writes are functional updates. -/
structure WS where
  n : Nat
  row : Nat → WRow

/-- Python truthiness of a cell value (`None` and `''` are falsy). -/
def truthyCell : Option Str → Bool
  | Option.none => false
  | Option.some s => s ≠ []

/-- Grouping key of a row (case1.py lines 290-303): `None` and `''`
references are skipped, all others are grouped by `str(value).strip()` when
that is non-empty. -/
def refKey (r : WRow) : Option Str :=
  match r.ref with
  | Option.none => Option.none
  | Option.some s =>
      if s = [] then Option.none
      else
        let t := pyStrip s
        if t = [] then Option.none else Option.some t

/-- `str(code_cell.value).strip().upper() if code_cell.value else ''`
(case1.py lines 316-317). -/
def codeCellKey (c : Option Str) : Str :=
  if truthyCell c then (pyStrip (c.getD [])).map pyUpperChar else []

/-- `str(description_cell.value).strip() if description_cell.value else ''`
(case1.py line 348). -/
def descrCellText (c : Option Str) : Str :=
  if truthyCell c then pyStrip (c.getD []) else []

/-- Insertion into the `reference_groups` dict (case1.py lines 300-303):
append the row index to the entry of key `k`, creating the entry at the end
on first occurrence (CPython dicts preserve insertion order). -/
def addToGroup : List (Str × List Nat) → Str → Nat → List (Str × List Nat)
  | [], k, i => [(k, [i])]
  | (k', g) :: rest, k, i =>
      if k' = k then (k', g ++ [i]) :: rest else (k', g) :: addToGroup rest k i

/-- The `reference_groups` dict built by the scan of case1.py lines 289-303,
as an insertion-ordered association list. -/
def buildGroups (w : WS) : List (Str × List Nat) :=
  (List.range w.n).foldl
    (fun acc i =>
      match refKey (w.row i) with
      | Option.none => acc
      | Option.some k => addToGroup acc k i)
    []

/-- Functional update of one code cell. -/
def setCode (w : WS) (i : Nat) (c : Str) : WS :=
  ⟨w.n, fun l => if l = i then { w.row l with code := Option.some c } else w.row l⟩

/-- Functional update of one description cell. -/
def setDescr (w : WS) (i : Nat) (d : Str) : WS :=
  ⟨w.n, fun l => if l = i then { w.row l with descr := Option.some d } else w.row l⟩

/-- Body of the per-group processing for a group of exactly two rows
(case1.py lines 311-351): identify the WD/WC row and the 3V row, rewrite
`WD`→`T/D` or `WC`→`T/C`, rewrite the 3V code to `O/D`, and rewrite the 3V
description to `"Comisión bancaria "` followed by the (stripped) WD/WC
description — read, as in the source, after the code writes. -/
def transformPair (w : WS) (i j : Nat) : WS :=
  let c1 := codeCellKey (w.row i).code
  let c2 := codeCellKey (w.row j).code
  let assign :=
    if (c1 = strLit "WD" ∨ c1 = strLit "WC") ∧ c2 = strLit "3V" then Option.some (i, j, c1)
    else if (c2 = strLit "WD" ∨ c2 = strLit "WC") ∧ c1 = strLit "3V" then Option.some (j, i, c2)
    else Option.none
  match assign with
  | Option.none => w
  | Option.some (wi, ti, wc) =>
      let w1 :=
        if wc = strLit "WD" then setCode w wi (strLit "T/D")
        else if wc = strLit "WC" then setCode w wi (strLit "T/C")
        else w
      let w2 := setCode w1 ti (strLit "O/D")
      let d := descrCellText (w2.row wi).descr
      setDescr w2 ti (strLit "Comisión bancaria " ++ d)

/-- One iteration of the loop over `reference_groups.items()` (case1.py
lines 307-353): groups whose size differs from two are skipped. -/
def applyGroup (w : WS) (e : Str × List Nat) : WS :=
  match e.2 with
  | [i, j] => transformPair w i j
  | _ => w

/-- `case1._process_duplicate_references` (case1.py lines 261-372) on the
located data region. -/
def process_duplicate_references (w : WS) : WS :=
  (buildGroups w).foldl applyGroup w

/-- All row indices of the data region sharing the non-empty reference key
`k`, in sheet order (specification-side description of a reference group). -/
def groupIndices (w : WS) (k : Str) : List Nat :=
  (List.range w.n).filter (fun i => refKey (w.row i) = Option.some k)

/-- A worksheet given as a plain list of data rows (row `i` of the list is
sheet row 16+i). -/
def mkWS (l : List WRow) : WS := ⟨l.length, fun i => l.getD i default⟩

/-- Specification-side description of what one pass of duplicate-reference
pairing does to the row at index `l`, given that the rows at `i` and `j`
(`i ≠ j`) form the group: the WD/WC row's code becomes `T/D` (`T/C` for
`WC`), the 3V row's code becomes `O/D` and its description becomes
`"Comisión bancaria "` followed by the WD/WC row's stripped description;
any other code combination leaves the rows untouched. -/
def pairRow (ri rj : WRow) (i j l : Nat) (orig : WRow) : WRow :=
  let c1 := codeCellKey ri.code
  let c2 := codeCellKey rj.code
  if (c1 = strLit "WD" ∨ c1 = strLit "WC") ∧ c2 = strLit "3V" then
    if l = i then
      { orig with code := Option.some (if c1 = strLit "WD" then strLit "T/D" else strLit "T/C") }
    else if l = j then
      { orig with code := Option.some (strLit "O/D"),
                  descr := Option.some (strLit "Comisión bancaria " ++ descrCellText ri.descr) }
    else orig
  else if (c2 = strLit "WD" ∨ c2 = strLit "WC") ∧ c1 = strLit "3V" then
    if l = j then
      { orig with code := Option.some (if c2 = strLit "WD" then strLit "T/D" else strLit "T/C") }
    else if l = i then
      { orig with code := Option.some (strLit "O/D"),
                  descr := Option.some (strLit "Comisión bancaria " ++ descrCellText rj.descr) }
    else orig
  else orig

/-- Specification-side per-row outcome of `_process_duplicate_references`:
rows with no (non-empty) reference, and rows whose reference group does not
have exactly two members, are untouched; a group of exactly two is
transformed according to `pairRow`. -/
def duplicate_references_row_outcome (w : WS) (l : Nat) : WRow :=
  match refKey (w.row l) with
  | Option.none => w.row l
  | Option.some k =>
      match groupIndices w k with
      | [i, j] => pairRow (w.row i) (w.row j) i j l (w.row l)
      | _ => w.row l

/-- The standardized tag the WD/WC code is rewritten to (case1.py lines
338-341). -/
def wdTag (c : Str) : Str :=
  if c = strLit "WD" then strLit "T/D" else strLit "T/C"

/-- The prefix of the `reference_groups` dict after scanning the first `m`
rows. -/
def buildGroupsPrefix (w : WS) (m : Nat) : List (Str × List Nat) :=
  (List.range m).foldl
    (fun acc i =>
      match refKey (w.row i) with
      | Option.none => acc
      | Option.some k => addToGroup acc k i)
    []

deriving instance DecidableEq for Except

/-- C3: keyword codification tries the credit rules first when credit>0 and
the first substring match in rule order wins; the debit rules are consulted
when debit>0 and no credit rule matched; for a record with credit>0 and
debit<=0 the debit rules are never consulted (a debit-rule match cannot
override a credit-rule match); and when no rule matches the record's code
is left unchanged. -/
theorem claim_C3_codification_order :
    (∀ nd search code : Str, ∀ rest : List (Str × Str), search ≠ [] → code ≠ [] →
        isSubstr search nd = true →
        match_codification nd ((search, code) :: rest) = code) ∧
    (∀ rules : CodificationRules, ∀ r : Row7, ∀ s : Str, r.descr = PyVal.str s →
        normalize_text_case7_str s ≠ [] → 0 < to_number r.credit →
        match_codification (normalize_text_case7_str s) rules.credit ≠ [] →
        determine_codification r rules =
          match_codification (normalize_text_case7_str s) rules.credit) ∧
    (∀ rules : CodificationRules, ∀ r : Row7, ∀ s : Str, r.descr = PyVal.str s →
        normalize_text_case7_str s ≠ [] → to_number r.credit ≤ 0 →
        0 < to_number r.debit →
        determine_codification r rules =
          match_codification (normalize_text_case7_str s) rules.debit) ∧
    (∀ rules : CodificationRules, ∀ r : Row7, ∀ s : Str, r.descr = PyVal.str s →
        normalize_text_case7_str s ≠ [] → 0 < to_number r.credit →
        to_number r.debit ≤ 0 →
        determine_codification r rules =
          match_codification (normalize_text_case7_str s) rules.credit) ∧
    (∀ rules : CodificationRules, ∀ r : Row7,
        determine_codification r rules = [] →
        assign_codes_by_description_row rules r = r) := by
  refine ⟨?_, ?_, ?_, ?_, ?_⟩
  · intro nd search code rest h1 h2 h3
    simp only [match_codification]
    rw [if_pos ⟨h1, h2, h3⟩]
  · intro rules r s hdescr hnd hcred hmatch
    simp only [determine_codification, hdescr]
    rw [if_neg hnd, if_pos hcred, if_pos hmatch]
  · intro rules r s hdescr hnd hcred hdeb
    simp only [determine_codification, hdescr]
    rw [if_neg hnd, if_neg (not_lt.mpr hcred)]
    rw [if_neg (by simp), if_pos hdeb]
  · intro rules r s hdescr hnd hcred hdeb
    simp only [determine_codification, hdescr]
    rw [if_neg hnd, if_pos hcred]
    by_cases hm : match_codification (normalize_text_case7_str s) rules.credit = []
    · rw [hm]
      rw [if_neg (by simp), if_neg (not_lt.mpr hdeb)]
    · rw [if_pos hm]
  · intro rules r h
    simp only [assign_codes_by_description_row, h]
    rw [if_neg (by simp)]

/-- Witness for C3 on a concrete rule set and records. -/
theorem claim_C3_codification_order_witness :
    match_codification (strLit "pago proveedor")
        ((strLit "pago", strLit "T/C") :: [(strLit "xx", strLit "ZZ")]) = strLit "T/C" ∧
    determine_codification
        ⟨PyVal.str (strLit "Pago proveedor"), PyVal.num 5, PyVal.num 7, []⟩
        ⟨[(strLit "pago", strLit "T/C")], [(strLit "pago", strLit "T/D")]⟩ =
      match_codification (normalize_text_case7_str (strLit "Pago proveedor"))
        [(strLit "pago", strLit "T/C")] ∧
    determine_codification
        ⟨PyVal.str (strLit "Pago proveedor"), PyVal.num 5, PyVal.num 0, []⟩
        ⟨[(strLit "pago", strLit "T/C")], [(strLit "pago", strLit "T/D")]⟩ =
      match_codification (normalize_text_case7_str (strLit "Pago proveedor"))
        [(strLit "pago", strLit "T/D")] ∧
    determine_codification
        ⟨PyVal.str (strLit "Pago proveedor"), PyVal.num 0, PyVal.num 7, []⟩
        ⟨[(strLit "pago", strLit "T/C")], [(strLit "pago", strLit "T/D")]⟩ =
      match_codification (normalize_text_case7_str (strLit "Pago proveedor"))
        [(strLit "pago", strLit "T/C")] ∧
    assign_codes_by_description_row
        ⟨[(strLit "pago", strLit "T/C")], [(strLit "pago", strLit "T/D")]⟩
        ⟨PyVal.str (strLit "Otra cosa"), PyVal.num 5, PyVal.num 7, strLit "K"⟩ =
      ⟨PyVal.str (strLit "Otra cosa"), PyVal.num 5, PyVal.num 7, strLit "K"⟩ :=
  ⟨claim_C3_codification_order.1 (strLit "pago proveedor") (strLit "pago") (strLit "T/C")
      [(strLit "xx", strLit "ZZ")] (by decide) (by decide) (by decide),
   claim_C3_codification_order.2.1
      ⟨[(strLit "pago", strLit "T/C")], [(strLit "pago", strLit "T/D")]⟩
      ⟨PyVal.str (strLit "Pago proveedor"), PyVal.num 5, PyVal.num 7, []⟩
      (strLit "Pago proveedor") rfl (by decide) (by decide) (by decide),
   claim_C3_codification_order.2.2.1
      ⟨[(strLit "pago", strLit "T/C")], [(strLit "pago", strLit "T/D")]⟩
      ⟨PyVal.str (strLit "Pago proveedor"), PyVal.num 5, PyVal.num 0, []⟩
      (strLit "Pago proveedor") rfl (by decide) (by decide) (by decide),
   claim_C3_codification_order.2.2.2.1
      ⟨[(strLit "pago", strLit "T/C")], [(strLit "pago", strLit "T/D")]⟩
      ⟨PyVal.str (strLit "Pago proveedor"), PyVal.num 0, PyVal.num 7, []⟩
      (strLit "Pago proveedor") rfl (by decide) (by decide) (by decide),
   claim_C3_codification_order.2.2.2.2
      ⟨[(strLit "pago", strLit "T/C")], [(strLit "pago", strLit "T/D")]⟩
      ⟨PyVal.str (strLit "Otra cosa"), PyVal.num 5, PyVal.num 7, strLit "K"⟩
      (by decide)⟩

/-- C4: the sign-exclusive remaps (case7 list variant and case1 worksheet
variant) fire only when exactly the matching amount exceeds the 1e-9
epsilon and the other does not; they only rewrite an existing non-empty
code, so rows with an empty/absent code, and rows where both amounts are
positive, are left unchanged; when all guards hold the configured map
rewrites the code. -/
theorem claim_C4_sign_exclusive_remap :
    (∀ pmap : List (Str × Str), ∀ r : Row7,
        ¬(EPSILON < to_number r.debit ∧ ¬EPSILON < to_number r.credit) →
        update_codes_for_positive_debits_row pmap r = r) ∧
    (∀ cmap : List (Str × Str), ∀ r : Row7,
        ¬(EPSILON < to_number r.credit ∧ ¬EPSILON < to_number r.debit) →
        update_codes_for_non_negative_credits_row cmap r = r) ∧
    (∀ pmap cmap : List (Str × Str), ∀ r : Row7, codeKeyOf r.code = [] →
        update_codes_for_positive_debits_row pmap r = r ∧
        update_codes_for_non_negative_credits_row cmap r = r) ∧
    (∀ pmap : List (Str × Str), ∀ r : Row7, ∀ nc : Str,
        EPSILON < to_number r.debit → to_number r.credit ≤ EPSILON →
        codeKeyOf r.code ≠ [] → List.lookup (codeKeyOf r.code) pmap = Option.some nc →
        nc ≠ [] → codeKeyOf r.code ≠ nc →
        update_codes_for_positive_debits_row pmap r = { r with code := nc }) ∧
    (∀ pmap : List (Str × Str), ∀ r : Cells1,
        ¬(is_positive (parse_decimal r.debit) = true ∧
            ¬is_positive (parse_decimal r.credit) = true) →
        update_codes_for_positive_debits_cells pmap r = r) ∧
    (∀ cmap : List (Str × Str), ∀ r : Cells1,
        ¬(is_positive (parse_decimal r.credit) = true ∧
            ¬is_positive (parse_decimal r.debit) = true) →
        update_codes_for_non_negative_credits_cells cmap r = r) ∧
    (∀ pmap cmap : List (Str × Str), ∀ r : Cells1,
        r.code = PyVal.none ∨ r.code = PyVal.str [] →
        update_codes_for_positive_debits_cells pmap r = r ∧
        update_codes_for_non_negative_credits_cells cmap r = r) := by
  refine ⟨?_, ?_, ?_, ?_, ?_, ?_, ?_⟩
  · intro pmap r h
    simp only [update_codes_for_positive_debits_row]
    by_cases h1 : to_number r.debit ≤ EPSILON
    · rw [if_pos h1]
    · rw [if_neg h1]
      have h2 : EPSILON < to_number r.credit := by
        by_contra hc
        exact h ⟨lt_of_not_le h1, hc⟩
      rw [if_pos h2]
  · intro cmap r h
    simp only [update_codes_for_non_negative_credits_row]
    by_cases h1 : to_number r.credit ≤ EPSILON
    · rw [if_pos h1]
    · rw [if_neg h1]
      have h2 : EPSILON < to_number r.debit := by
        by_contra hc
        exact h ⟨lt_of_not_le h1, hc⟩
      rw [if_pos h2]
  · intro pmap cmap r hcode
    constructor
    · simp only [update_codes_for_positive_debits_row]
      by_cases h1 : to_number r.debit ≤ EPSILON
      · rw [if_pos h1]
      · rw [if_neg h1]
        by_cases h2 : EPSILON < to_number r.credit
        · rw [if_pos h2]
        · rw [if_neg h2, if_pos hcode]
    · simp only [update_codes_for_non_negative_credits_row]
      by_cases h1 : to_number r.credit ≤ EPSILON
      · rw [if_pos h1]
      · rw [if_neg h1]
        by_cases h2 : EPSILON < to_number r.debit
        · rw [if_pos h2]
        · rw [if_neg h2, if_pos hcode]
  · intro pmap r nc h1 h2 h3 hlook h4 h5
    simp only [update_codes_for_positive_debits_row]
    rw [if_neg (not_le.mpr h1), if_neg (not_lt.mpr h2), if_neg h3]
    simp only [hlook]
    rw [if_pos (show nc ≠ [] ∧ codeKeyOf r.code ≠ nc from ⟨h4, h5⟩)]
  · intro pmap r h
    simp only [update_codes_for_positive_debits_cells]
    by_cases h1 : is_positive (parse_decimal r.debit) = true
    · have h2 : is_positive (parse_decimal r.credit) = true := by
        by_contra hc
        exact h ⟨h1, hc⟩
      rw [if_neg (by simp [h1]), if_pos h2]
    · rw [if_pos (by simp only [Bool.not_eq_true] at h1; simp [h1])]
  · intro cmap r h
    simp only [update_codes_for_non_negative_credits_cells]
    by_cases h1 : is_positive (parse_decimal r.credit) = true
    · have h2 : is_positive (parse_decimal r.debit) = true := by
        by_contra hc
        exact h ⟨h1, hc⟩
      rw [if_neg (by simp [h1]), if_pos h2]
    · rw [if_pos (by simp only [Bool.not_eq_true] at h1; simp [h1])]
  · intro pmap cmap r hcode
    constructor
    · simp only [update_codes_for_positive_debits_cells]
      by_cases h1 : is_positive (parse_decimal r.debit) = true
      · by_cases h2 : is_positive (parse_decimal r.credit) = true
        · rw [if_neg (by simp [h1]), if_pos h2]
        · rw [if_neg (by simp [h1]), if_neg h2, if_pos hcode]
      · rw [if_pos (by simp only [Bool.not_eq_true] at h1; simp [h1])]
    · simp only [update_codes_for_non_negative_credits_cells]
      by_cases h1 : is_positive (parse_decimal r.credit) = true
      · by_cases h2 : is_positive (parse_decimal r.debit) = true
        · rw [if_neg (by simp [h1]), if_pos h2]
        · rw [if_neg (by simp [h1]), if_neg h2, if_pos hcode]
      · rw [if_pos (by simp only [Bool.not_eq_true] at h1; simp [h1])]

/-- Witness for C4 at concrete rows and maps. -/
theorem claim_C4_sign_exclusive_remap_witness :
    update_codes_for_positive_debits_row [(strLit "WD", strLit "T/D")]
        ⟨PyVal.str (strLit "x"), PyVal.num 5, PyVal.num 7, strLit "WD"⟩ =
      ⟨PyVal.str (strLit "x"), PyVal.num 5, PyVal.num 7, strLit "WD"⟩ ∧
    update_codes_for_non_negative_credits_row [(strLit "WC", strLit "T/C")]
        ⟨PyVal.str (strLit "x"), PyVal.num 5, PyVal.num 7, strLit "WC"⟩ =
      ⟨PyVal.str (strLit "x"), PyVal.num 5, PyVal.num 7, strLit "WC"⟩ ∧
    update_codes_for_positive_debits_row [(strLit "WD", strLit "T/D")]
        ⟨PyVal.str (strLit "x"), PyVal.num 5, PyVal.num 0, []⟩ =
      ⟨PyVal.str (strLit "x"), PyVal.num 5, PyVal.num 0, []⟩ ∧
    update_codes_for_positive_debits_row [(strLit "WD", strLit "T/D")]
        ⟨PyVal.str (strLit "x"), PyVal.num 5, PyVal.num 0, strLit "wd"⟩ =
      ⟨PyVal.str (strLit "x"), PyVal.num 5, PyVal.num 0, strLit "T/D"⟩ ∧
    update_codes_for_positive_debits_cells [(strLit "WD", strLit "T/D")]
        ⟨PyVal.str (strLit "WD"), PyVal.str (strLit "5,00"), PyVal.str (strLit "7,00")⟩ =
      ⟨PyVal.str (strLit "WD"), PyVal.str (strLit "5,00"), PyVal.str (strLit "7,00")⟩ ∧
    update_codes_for_non_negative_credits_cells [(strLit "WC", strLit "T/C")]
        ⟨PyVal.str (strLit "WC"), PyVal.str (strLit "5,00"), PyVal.str (strLit "7,00")⟩ =
      ⟨PyVal.str (strLit "WC"), PyVal.str (strLit "5,00"), PyVal.str (strLit "7,00")⟩ ∧
    update_codes_for_positive_debits_cells [(strLit "WD", strLit "T/D")]
        ⟨PyVal.none, PyVal.str (strLit "5,00"), PyVal.none⟩ =
      ⟨PyVal.none, PyVal.str (strLit "5,00"), PyVal.none⟩ :=
  ⟨claim_C4_sign_exclusive_remap.1 [(strLit "WD", strLit "T/D")]
      ⟨PyVal.str (strLit "x"), PyVal.num 5, PyVal.num 7, strLit "WD"⟩ (by decide),
   claim_C4_sign_exclusive_remap.2.1 [(strLit "WC", strLit "T/C")]
      ⟨PyVal.str (strLit "x"), PyVal.num 5, PyVal.num 7, strLit "WC"⟩ (by decide),
   (claim_C4_sign_exclusive_remap.2.2.1 [(strLit "WD", strLit "T/D")] []
      ⟨PyVal.str (strLit "x"), PyVal.num 5, PyVal.num 0, []⟩ (by decide)).1,
   claim_C4_sign_exclusive_remap.2.2.2.1 [(strLit "WD", strLit "T/D")]
      ⟨PyVal.str (strLit "x"), PyVal.num 5, PyVal.num 0, strLit "wd"⟩ (strLit "T/D")
      (by decide) (by decide) (by decide) (by decide) (by decide) (by decide),
   claim_C4_sign_exclusive_remap.2.2.2.2.1 [(strLit "WD", strLit "T/D")]
      ⟨PyVal.str (strLit "WD"), PyVal.str (strLit "5,00"), PyVal.str (strLit "7,00")⟩
      (by decide),
   claim_C4_sign_exclusive_remap.2.2.2.2.2.1 [(strLit "WC", strLit "T/C")]
      ⟨PyVal.str (strLit "WC"), PyVal.str (strLit "5,00"), PyVal.str (strLit "7,00")⟩
      (by decide),
   (claim_C4_sign_exclusive_remap.2.2.2.2.2.2 [(strLit "WD", strLit "T/D")] []
      ⟨PyVal.none, PyVal.str (strLit "5,00"), PyVal.none⟩ (Or.inl rfl)).1⟩

/-- C9: `case7._to_number` is total and never returns a null: `None`, the
empty string and every unparsable string collapse to `0.0`; consequently a
record whose debit and credit cells hold unparsable text is a zero-amount
record, on which neither keyword codification nor the sign-exclusive remap
fires. -/
theorem claim_C9_to_number_total :
    to_number PyVal.none = 0 ∧
    to_number (PyVal.str []) = 0 ∧
    (∀ s : Str, to_number_str s = Option.none → to_number (PyVal.str s) = 0) ∧
    (∀ rules : CodificationRules, ∀ r : Row7, ∀ sd sc : Str,
        r.debit = PyVal.str sd → to_number_str sd = Option.none →
        r.credit = PyVal.str sc → to_number_str sc = Option.none →
        assign_codes_by_description_row rules r = r) ∧
    (∀ pmap cmap : List (Str × Str), ∀ r : Row7, ∀ sd sc : Str,
        r.debit = PyVal.str sd → to_number_str sd = Option.none →
        r.credit = PyVal.str sc → to_number_str sc = Option.none →
        update_codes_for_positive_debits_row pmap r = r ∧
        update_codes_for_non_negative_credits_row cmap r = r) := by
  have hz : ∀ (s : Str), to_number_str s = Option.none → to_number (PyVal.str s) = 0 := by
    intro s h
    simp only [to_number, h, Option.getD_none]
  refine ⟨rfl, ?_, hz, ?_, ?_⟩
  · exact hz [] rfl
  · intro rules r sd sc hd hdn hc hcn
    have hd0 : to_number r.debit = 0 := by rw [hd]; exact hz sd hdn
    have hc0 : to_number r.credit = 0 := by rw [hc]; exact hz sc hcn
    have hdet : determine_codification r rules = [] := by
      cases hdescr : r.descr with
      | str s =>
          simp only [determine_codification, hdescr, hd0, hc0]
          by_cases hnd : normalize_text_case7_str s = []
          · rw [if_pos hnd]
          · rw [if_neg hnd]
            rw [if_neg (lt_irrefl (0 : ℚ))]
            rw [if_neg (by simp)]
            rw [if_neg (lt_irrefl (0 : ℚ))]
      | none => simp only [determine_codification, hdescr]
      | num q => simp only [determine_codification, hdescr]
      | dateVal d => simp only [determine_codification, hdescr]
    simp only [assign_codes_by_description_row, hdet]
    rw [if_neg (by simp)]
  · intro pmap cmap r sd sc hd hdn hc hcn
    have hd0 : to_number r.debit = 0 := by rw [hd]; exact hz sd hdn
    have hc0 : to_number r.credit = 0 := by rw [hc]; exact hz sc hcn
    constructor
    · simp only [update_codes_for_positive_debits_row, hd0]
      rw [if_pos (by decide)]
    · simp only [update_codes_for_non_negative_credits_row, hc0]
      rw [if_pos (by decide)]

/-- Witness for C9 at a record whose amount cells hold unparsable text. -/
theorem claim_C9_to_number_total_witness :
    to_number (PyVal.str (strLit "sin dato")) = 0 ∧
    assign_codes_by_description_row
        ⟨[(strLit "pago", strLit "T/C")], [(strLit "pago", strLit "T/D")]⟩
        ⟨PyVal.str (strLit "Pago proveedor"), PyVal.str (strLit "sin dato"),
          PyVal.str (strLit "n/a"), strLit "WD"⟩ =
      ⟨PyVal.str (strLit "Pago proveedor"), PyVal.str (strLit "sin dato"),
        PyVal.str (strLit "n/a"), strLit "WD"⟩ ∧
    update_codes_for_positive_debits_row [(strLit "WD", strLit "T/D")]
        ⟨PyVal.str (strLit "Pago proveedor"), PyVal.str (strLit "sin dato"),
          PyVal.str (strLit "n/a"), strLit "WD"⟩ =
      ⟨PyVal.str (strLit "Pago proveedor"), PyVal.str (strLit "sin dato"),
        PyVal.str (strLit "n/a"), strLit "WD"⟩ :=
  ⟨claim_C9_to_number_total.2.2.1 (strLit "sin dato") (by decide),
   claim_C9_to_number_total.2.2.2.1
      ⟨[(strLit "pago", strLit "T/C")], [(strLit "pago", strLit "T/D")]⟩
      ⟨PyVal.str (strLit "Pago proveedor"), PyVal.str (strLit "sin dato"),
        PyVal.str (strLit "n/a"), strLit "WD"⟩
      (strLit "sin dato") (strLit "n/a") rfl (by decide) rfl (by decide),
   (claim_C9_to_number_total.2.2.2.2 [(strLit "WD", strLit "T/D")] []
      ⟨PyVal.str (strLit "Pago proveedor"), PyVal.str (strLit "sin dato"),
        PyVal.str (strLit "n/a"), strLit "WD"⟩
      (strLit "sin dato") (strLit "n/a") rfl (by decide) rfl (by decide)).1⟩


/-- Rows with unparsable dates survive the case1 scan. -/
theorem case1FilterLoop_keeps_unparsable (lo hi : CivilDate) (rows : List PyVal)
    (v : PyVal) (hv : v ∈ rows) (hp : parse_date_value v = Option.none) :
    v ∈ (case1FilterLoop lo hi rows).1 := by
  induction rows with
  | nil => cases hv
  | cons w rest ih =>
      rcases List.mem_cons.mp hv with rfl | hv
      · simp only [case1FilterLoop, hp]
        exact List.mem_cons_self _ _
      · simp only [case1FilterLoop]
        cases hq : parse_date_value w with
        | none => exact List.mem_cons_of_mem _ (ih hv)
        | some d =>
            by_cases hr : (dateLE lo d && dateLE d hi) = true
            · simp only [hr, if_true]
              exact List.mem_cons_of_mem _ (ih hv)
            · simp only [hr, if_false]
              exact ih hv

/-- The case1 scan counts exactly the parsable in-range rows. -/
theorem case1FilterLoop_count (lo hi : CivilDate) (rows : List PyVal) :
    (case1FilterLoop lo hi rows).2 =
      rows.countP (fun v =>
        match parse_date_value v with
        | Option.none => false
        | Option.some d => dateLE lo d && dateLE d hi) := by
  induction rows with
  | nil => rfl
  | cons w rest ih =>
      simp only [case1FilterLoop, List.countP_cons]
      cases hq : parse_date_value w with
      | none => simp [hq, ih]
      | some d =>
          by_cases hr : (dateLE lo d && dateLE d hi) = true
          · simp [hq, hr, ih]
          · simp [hq, hr, ih]

/-- A scan of rows none of which parses keeps everything and counts zero. -/
theorem case1FilterLoop_all_unparsable (lo hi : CivilDate) (rows : List PyVal)
    (h : ∀ v ∈ rows, parse_date_value v = Option.none) :
    case1FilterLoop lo hi rows = (rows, 0) := by
  induction rows with
  | nil => rfl
  | cons w rest ih =>
      have hw := h w (List.mem_cons_self _ _)
      have hr := ih (fun v hv => h v (List.mem_cons_of_mem _ hv))
      simp only [case1FilterLoop, hw, hr]

/-- The case2 scan, when it completes, keeps every row whose date does not
parse. -/
theorem case2FilterLoop_keeps_unparsable (lo hi : CivilDate) (rows : List PyVal)
    (kept : List PyVal) (n : Nat)
    (hres : case2FilterLoop lo hi rows = Except.ok (kept, n))
    (v : PyVal) (hv : v ∈ rows) (hp : parse_date_from_value v = Except.ok Option.none) :
    v ∈ kept := by
  induction rows generalizing kept n with
  | nil => cases hv
  | cons w rest ih =>
      rcases List.mem_cons.mp hv with rfl | hv
      · simp only [case2FilterLoop, hp] at hres
        cases hrest : case2FilterLoop lo hi rest with
        | error e => rw [hrest] at hres; cases hres
        | ok r =>
            rw [hrest] at hres
            simp only [] at hres
            cases hres
            exact List.mem_cons_self _ _
      · cases hw : parse_date_from_value w with
        | error e => simp only [case2FilterLoop, hw] at hres; cases hres
        | ok od =>
            cases hrest : case2FilterLoop lo hi rest with
            | error e => simp only [case2FilterLoop, hw, hrest] at hres; cases hres
            | ok r =>
                simp only [case2FilterLoop, hw, hrest] at hres
                cases od with
                | none =>
                    cases hres
                    exact List.mem_cons_of_mem _ (ih r.1 r.2 hrest hv)
                | some d =>
                    by_cases hr : (dateLE lo d && dateLE d hi) = true
                    · simp only [hr, if_true] at hres
                      cases hres
                      exact List.mem_cons_of_mem _ (ih r.1 r.2 hrest hv)
                    · simp only [Bool.not_eq_true] at hr
                      simp only [hr, Bool.false_eq_true, if_false] at hres
                      cases hres
                      exact ih kept n hrest hv

/-- A case2 scan of rows none of which parses keeps everything, counts zero,
and does not crash. -/
theorem case2FilterLoop_all_unparsable (lo hi : CivilDate) (rows : List PyVal)
    (h : ∀ v ∈ rows, parse_date_from_value v = Except.ok Option.none) :
    case2FilterLoop lo hi rows = Except.ok (rows, 0) := by
  induction rows with
  | nil => rfl
  | cons w rest ih =>
      have hw := h w (List.mem_cons_self _ _)
      have hr := ih (fun v hv => h v (List.mem_cons_of_mem _ hv))
      simp only [case2FilterLoop, hw, hr]

/-- Dropping a prefix by `p` twice is the same as dropping it once. -/
theorem dropWhile_dropWhile_self (p : Nat → Bool) (l : Str) :
    (l.dropWhile p).dropWhile p = l.dropWhile p := by
  induction l with
  | nil => rfl
  | cons a t ih =>
      by_cases h : p a = true
      · simp [List.dropWhile_cons, h, ih]
      · simp [List.dropWhile_cons, h]

/-- The head surviving a `dropWhile` fails the predicate. -/
theorem dropWhile_head?_false (p : Nat → Bool) (l : Str) :
    ∀ a, (l.dropWhile p).head? = Option.some a → p a = false := by
  induction l with
  | nil => intro a h; cases h
  | cons b t ih =>
      intro a h
      by_cases hb : p b = true
      · rw [List.dropWhile_cons, if_pos hb] at h
        exact ih a h
      · rw [List.dropWhile_cons, if_neg hb] at h
        have hba : b = a := by cases h; rfl
        subst hba
        simp only [Bool.not_eq_true] at hb
        exact hb

/-- `dropWhile` keeps the last element when its result is non-empty. -/
theorem dropWhile_getLast? (p : Nat → Bool) (l : Str) (h : l.dropWhile p ≠ []) :
    (l.dropWhile p).getLast? = l.getLast? := by
  induction l with
  | nil => cases h rfl
  | cons a t ih =>
      rw [List.dropWhile_cons] at h ⊢
      by_cases ha : p a = true
      · rw [if_pos ha] at h ⊢
        have ht : t ≠ [] := by
          intro hcon
          subst hcon
          exact h rfl
        rw [ih h]
        cases t with
        | nil => cases ht rfl
        | cons b t' => rw [List.getLast?_cons_cons]
      · rw [if_neg ha]

/-- `str.strip()` is idempotent. -/
theorem pyStrip_idem (s : Str) : pyStrip (pyStrip s) = pyStrip s := by
  by_cases hempty : pyStrip s = []
  · rw [hempty]; rfl
  · have step1 : (pyStrip s).dropWhile isPySpace = pyStrip s := by
      cases ht : pyStrip s with
      | nil => rfl
      | cons a t' =>
          have hhead : (pyStrip s).head? = Option.some a := by rw [ht]; rfl
          have hgl : (pyStrip s).head? =
              ((s.dropWhile isPySpace).reverse.dropWhile isPySpace).getLast? := by
            unfold pyStrip
            rw [List.head?_reverse]
          have hne : (s.dropWhile isPySpace).reverse.dropWhile isPySpace ≠ [] := by
            intro hcon
            apply hempty
            unfold pyStrip
            rw [hcon]
            rfl
          have hgl2 : ((s.dropWhile isPySpace).reverse.dropWhile isPySpace).getLast? =
              (s.dropWhile isPySpace).reverse.getLast? := dropWhile_getLast? _ _ hne
          have hgl3 : (s.dropWhile isPySpace).reverse.getLast? =
              (s.dropWhile isPySpace).head? := List.getLast?_reverse _
          have hfail : isPySpace a = false := by
            apply dropWhile_head?_false isPySpace s
            rw [← hgl3, ← hgl2, ← hgl, hhead]
          rw [List.dropWhile_cons, if_neg (by simp [hfail])]
    have step2 : (pyStrip s).reverse.dropWhile isPySpace = (pyStrip s).reverse := by
      have hrev : (pyStrip s).reverse =
          (s.dropWhile isPySpace).reverse.dropWhile isPySpace := by
        unfold pyStrip
        rw [List.reverse_reverse]
      rw [hrev, dropWhile_dropWhile_self]
    calc pyStrip (pyStrip s)
        = (((pyStrip s).dropWhile isPySpace).reverse.dropWhile isPySpace).reverse := rfl
      _ = ((pyStrip s).reverse.dropWhile isPySpace).reverse := by rw [step1]
      _ = ((pyStrip s).reverse).reverse := by rw [step2]
      _ = pyStrip s := List.reverse_reverse _

/-- Case analysis for membership in a two-element list. -/
theorem mem_pair_cases {b x y : Nat} (h : b ∈ ([x, y] : List Nat)) : b = x ∨ b = y := by
  cases h with
  | head => exact Or.inl rfl
  | tail _ h2 =>
      cases h2 with
      | head => exact Or.inr rfl
      | tail _ h3 => cases h3

/-- Case analysis for membership in a one-element list. -/
theorem mem_one_cases {b x : Nat} (h : b ∈ ([x] : List Nat)) : b = x := by
  cases h with
  | head => rfl
  | tail _ h2 => cases h2

/-- Every code point of a normalized string is NFKD-stable, non-combining
and lowercase-stable. -/
theorem normalizeCore_mem_closed (s : Str) :
    ∀ c ∈ normalizeCore s, nfkdChar c = [c] ∧ isCombining c = false ∧ pyLowerChar c = c := by
  intro c hc
  simp only [normalizeCore, List.mem_map] at hc
  obtain ⟨b, hb, rfl⟩ := hc
  simp only [List.mem_filter] at hb
  obtain ⟨hbm, hbc⟩ := hb
  simp only [List.mem_flatMap] at hbm
  obtain ⟨a, _, hab⟩ := hbm
  have hbcomb : isCombining b = false := by simpa using hbc
  have hbprops : b = 69 ∨ b = 101 ∨ (nfkdChar b = [b] ∧ isCombining b = false) := by
    by_cases ha201 : a = 201
    · subst ha201
      rw [show nfkdChar 201 = [69, 769] from rfl] at hab
      rcases mem_pair_cases hab with rfl | rfl
      · exact Or.inl rfl
      · cases hbcomb.symm.trans (by decide : isCombining 769 = true)
    · by_cases ha233 : a = 233
      · subst ha233
        rw [show nfkdChar 233 = [101, 769] from rfl] at hab
        rcases mem_pair_cases hab with rfl | rfl
        · exact Or.inr (Or.inl rfl)
        · cases hbcomb.symm.trans (by decide : isCombining 769 = true)
      · rw [show nfkdChar a = [a] by simp only [nfkdChar]; rw [if_neg ha201, if_neg ha233]] at hab
        have hba := mem_one_cases hab
        subst hba
        refine Or.inr (Or.inr ⟨?_, hbcomb⟩)
        simp only [nfkdChar]
        rw [if_neg ha201, if_neg ha233]
  rcases hbprops with rfl | rfl | ⟨hnb, hcb⟩
  · decide
  · decide
  · by_cases hAZ : 65 ≤ b ∧ b ≤ 90
    · have hlc : pyLowerChar b = b + 32 := if_pos hAZ
      rw [hlc]
      refine ⟨?_, ?_, ?_⟩
      · simp only [nfkdChar]
        rw [if_neg (by omega), if_neg (by omega)]
      · unfold isCombining
        rw [decide_eq_false (show ¬(768 ≤ b + 32) by omega), Bool.false_and]
      · simp only [pyLowerChar]
        rw [if_neg (by omega)]
    · have hlc : pyLowerChar b = b := if_neg hAZ
      rw [hlc]
      exact ⟨hnb, hcb, hlc⟩

/-- Strings all of whose code points are NFKD-stable, non-combining and
lowercase-stable are fixed by `normalizeCore`. -/
theorem normalizeCore_eq_self (s : Str)
    (h : ∀ c ∈ s, nfkdChar c = [c] ∧ isCombining c = false ∧ pyLowerChar c = c) :
    normalizeCore s = s := by
  induction s with
  | nil => rfl
  | cons a t ih =>
      have ha := h a (List.mem_cons_self _ _)
      have ht := ih (fun c hc => h c (List.mem_cons_of_mem _ hc))
      simp only [normalizeCore, List.flatMap_cons, ha.1, List.singleton_append,
        List.filter_cons]
      rw [if_pos (by simp [ha.2.1])]
      simp only [List.map_cons, ha.2.2]
      simp only [normalizeCore] at ht
      exact congrArg (a :: ·) ht

/-- Members of a stripped string are members of the string. -/
theorem pyStrip_subset (s : Str) : ∀ c ∈ pyStrip s, c ∈ s := by
  intro c hc
  unfold pyStrip at hc
  rw [List.mem_reverse] at hc
  have hc2 := (List.dropWhile_sublist (l := (s.dropWhile isPySpace).reverse)
    (p := isPySpace)).subset hc
  rw [List.mem_reverse] at hc2
  exact (List.dropWhile_sublist (l := s) (p := isPySpace)).subset hc2

/-- Filtering twice by the same predicate equals filtering once. -/
theorem filter_self_idem (p : Nat → Bool) (l : Str) : (l.filter p).filter p = l.filter p :=
  List.filter_eq_self.mpr (fun _ ha => (List.mem_filter.mp ha).2)

/-- C8: both `_normalize_text` variants are idempotent and case- and
accent-insensitive — the spellings "Débitos", "debitos" and " DÉBITOS "
normalize to the same key — and every non-string input normalizes to the
empty string (the function never fails). -/
theorem claim_C8_normalize :
    (∀ v : PyVal, normalize_text_case1 (PyVal.str (normalize_text_case1 v)) =
        normalize_text_case1 v) ∧
    (∀ v : PyVal, normalize_text_case7 (PyVal.str (normalize_text_case7 v)) =
        normalize_text_case7 v) ∧
    (normalize_text_case1 (PyVal.str (strLit "Débitos")) =
        normalize_text_case1 (PyVal.str (strLit "debitos")) ∧
      normalize_text_case1 (PyVal.str (strLit "debitos")) =
        normalize_text_case1 (PyVal.str (strLit " DÉBITOS "))) ∧
    (normalize_text_case7 (PyVal.str (strLit "Débitos")) =
        normalize_text_case7 (PyVal.str (strLit "debitos")) ∧
      normalize_text_case7 (PyVal.str (strLit "debitos")) =
        normalize_text_case7 (PyVal.str (strLit " DÉBITOS "))) ∧
    (∀ v : PyVal, (∀ s : Str, v ≠ PyVal.str s) →
        normalize_text_case1 v = [] ∧ normalize_text_case7 v = []) := by
  have hidem1 : ∀ s : Str, normalize_text_case1_str (normalize_text_case1_str s) =
      normalize_text_case1_str s := by
    intro s
    unfold normalize_text_case1_str
    have hm : ∀ c ∈ pyStrip (normalizeCore s),
        nfkdChar c = [c] ∧ isCombining c = false ∧ pyLowerChar c = c :=
      fun c hc => normalizeCore_mem_closed s c (pyStrip_subset _ c hc)
    rw [normalizeCore_eq_self _ hm, pyStrip_idem]
  have hidem7 : ∀ s : Str, normalize_text_case7_str (normalize_text_case7_str s) =
      normalize_text_case7_str s := by
    intro s
    unfold normalize_text_case7_str
    have hm : ∀ c ∈ (normalizeCore s).filter (fun c => c ≠ 32),
        nfkdChar c = [c] ∧ isCombining c = false ∧ pyLowerChar c = c :=
      fun c hc => normalizeCore_mem_closed s c (List.mem_filter.mp hc).1
    rw [normalizeCore_eq_self _ hm, filter_self_idem]
  refine ⟨?_, ?_, ⟨by decide, by decide⟩, ⟨by decide, by decide⟩, ?_⟩
  · intro v
    cases v with
    | str s => exact hidem1 s
    | none => rfl
    | num q => rfl
    | dateVal d => rfl
  · intro v
    cases v with
    | str s => exact hidem7 s
    | none => rfl
    | num q => rfl
    | dateVal d => rfl
  · intro v hv
    cases v with
    | str s => exact absurd rfl (hv s)
    | none => exact ⟨rfl, rfl⟩
    | num q => exact ⟨rfl, rfl⟩
    | dateVal d => exact ⟨rfl, rfl⟩

/-- Witness for C8 at a concrete accented string and a non-string input. -/
theorem claim_C8_normalize_witness :
    normalize_text_case1 (PyVal.str (normalize_text_case1 (PyVal.str (strLit "Débitos")))) =
        normalize_text_case1 (PyVal.str (strLit "Débitos")) ∧
    normalize_text_case1 PyVal.none = [] ∧ normalize_text_case7 PyVal.none = [] :=
  ⟨claim_C8_normalize.1 (PyVal.str (strLit "Débitos")),
   (claim_C8_normalize.2.2.2.2 PyVal.none (fun _ h => PyVal.noConfusion h)).1,
   (claim_C8_normalize.2.2.2.2 PyVal.none (fun _ h => PyVal.noConfusion h)).2⟩

/-- C5: `parseDecimal` resolves `"1.234,56"` and `"1,234.56"` to the same
value 1234.56 (the separator occurring later in the string is the decimal
separator), parses `"1 234,56"` written with a non-breaking space to
1234.56, and returns `None` for the placeholders `"-"`, `"--"` and the empty
string. -/
theorem claim_C5_parse_decimal :
    parse_decimal (PyVal.str (strLit "1.234,56")) = Option.some (mkRat 123456 100) ∧
    parse_decimal (PyVal.str (strLit "1,234.56")) = Option.some (mkRat 123456 100) ∧
    parse_decimal (PyVal.str (strLit "1 234,56")) = Option.some (mkRat 123456 100) ∧
    parse_decimal (PyVal.str (strLit "-")) = Option.none ∧
    parse_decimal (PyVal.str (strLit "--")) = Option.none ∧
    parse_decimal (PyVal.str (strLit "")) = Option.none := by
  decide

/-- C6 counterexample: `case2._parse_date_from_value` converts the numeric
serial 1 from the 1899-12-30 epoch to 1899-12-31 — a year outside the
1900..9999 bound — and returns it instead of `None`, because its numeric
branch (case2.py lines 617-622) has no year plausibility check. -/
theorem counterexample_C6_case2_serial_no_bound :
    parse_date_from_value (PyVal.num (mkRat 1 1)) =
        Except.ok (Option.some ⟨1899, 12, 31⟩) ∧
    dateFromSerial (mkRat 1 1) = ⟨1899, 12, 31⟩ ∧
    ¬(1900 ≤ (1899 : ℤ) ∧ (1899 : ℤ) ≤ 9999) := by
  decide

/-- C6 (amended): `case1._parse_date_value` converts numeric serials from
the 1899-12-30 epoch and accepts the result exactly when its year lies in
1900..9999, returning `None` otherwise; `case2._parse_date_from_value`
instead accepts every positive serial whose year does not exceed 9999 (no
lower bound — small serials yield 1899 dates), returns `None` for
non-positive serials, and swallows the overflow past year 9999 as `None`. -/
theorem claim_C6_serial_bound :
    (∀ q : ℚ, ¬(1900 ≤ (dateFromSerial q).year ∧ (dateFromSerial q).year ≤ 9999) →
        parse_date_value (PyVal.num q) = Option.none) ∧
    (∀ q : ℚ, 1900 ≤ (dateFromSerial q).year → (dateFromSerial q).year ≤ 9999 →
        parse_date_value (PyVal.num q) = Option.some (dateFromSerial q)) ∧
    (∀ q : ℚ, q ≤ 0 → parse_date_from_value (PyVal.num q) = Except.ok Option.none) ∧
    (∀ q : ℚ, 0 < q → (dateFromSerial q).year ≤ 9999 →
        parse_date_from_value (PyVal.num q) = Except.ok (Option.some (dateFromSerial q))) ∧
    (∀ q : ℚ, 9999 < (dateFromSerial q).year →
        parse_date_from_value (PyVal.num q) = Except.ok Option.none) := by
  refine ⟨?_, ?_, ?_, ?_, ?_⟩
  · intro q h
    simp only [parse_date_value, if_neg h]
  · intro q h1 h2
    simp only [parse_date_value]
    exact if_pos ⟨h1, h2⟩
  · intro q h
    have : ¬(0 < q ∧ (dateFromSerial q).year ≤ 9999) := fun hc => absurd hc.1 (not_lt.mpr h)
    simp only [parse_date_from_value, if_neg this]
  · intro q h1 h2
    simp only [parse_date_from_value]
    exact if_pos ⟨h1, h2⟩
  · intro q h
    have : ¬(0 < q ∧ (dateFromSerial q).year ≤ 9999) := fun hc => absurd h (not_lt.mpr hc.2)
    simp only [parse_date_from_value, if_neg this]

/-- Witness for C6 at concrete serials: 5000000 (year 15587) is rejected by
case1, 45000 (2023-03-15) is accepted by both, -3 and the overflowing
5000000 yield `None` in case2. -/
theorem claim_C6_serial_bound_witness :
    parse_date_value (PyVal.num (mkRat 5000000 1)) = Option.none ∧
    parse_date_value (PyVal.num (mkRat 45000 1)) = Option.some (dateFromSerial (mkRat 45000 1)) ∧
    parse_date_from_value (PyVal.num (mkRat (-3) 1)) = Except.ok Option.none ∧
    parse_date_from_value (PyVal.num (mkRat 45000 1)) =
        Except.ok (Option.some (dateFromSerial (mkRat 45000 1))) ∧
    parse_date_from_value (PyVal.num (mkRat 5000000 1)) = Except.ok Option.none :=
  ⟨claim_C6_serial_bound.1 (mkRat 5000000 1) (by decide),
   claim_C6_serial_bound.2.1 (mkRat 45000 1) (by decide) (by decide),
   claim_C6_serial_bound.2.2.1 (mkRat (-3) 1) (by decide),
   claim_C6_serial_bound.2.2.2.1 (mkRat 45000 1) (by decide) (by decide),
   claim_C6_serial_bound.2.2.2.2 (mkRat 5000000 1) (by decide)⟩

/-- C1 counterexample (end-to-end scenario B input): a sheet whose only
parsable date falls in October filtered by the range 01/11/2025-30/11/2025.
`case1._filter_rows_by_date_range` returns normally — it only logs the
zero-rows warning (`true` flag) and processing continues, so the attachment
still produces its artifacts — whereas only the case2 variant raises
`DateRangeNotFoundError`.  The claim's "for every input sheet" therefore
fails on the case1 pipeline. -/
theorem counterexample_C1_case1_does_not_fail :
    case1_filter_rows_by_date_range
        (Option.some (⟨2025, 11, 1⟩, ⟨2025, 11, 30⟩))
        [PyVal.dateVal ⟨2025, 10, 15⟩] = Except.ok ([], true) ∧
    case2_filter_rows_by_date_range
        (Option.some (⟨2025, 11, 1⟩, ⟨2025, 11, 30⟩))
        [PyVal.dateVal ⟨2025, 10, 15⟩] = Except.error PyExc.dateRangeNotFound := by
  decide

/-- C1 (amended): in the case2 pipeline, a supplied range under which zero
data-region rows parse inside the (normalized, inclusive) range makes the
filter raise `DateRangeNotFoundError`, which `process_email` catches per
attachment, producing no artifact for it; the case1 filter never raises —
it returns normally for every input, only flagging the zero-rows warning. -/
theorem claim_C1_empty_after_filter :
    (∀ lo hi : CivilDate, ∀ rows kept : List PyVal, dateLT hi lo = false →
        case2FilterLoop lo hi rows = Except.ok (kept, 0) →
        case2_filter_rows_by_date_range (Option.some (lo, hi)) rows =
          Except.error PyExc.dateRangeNotFound) ∧
    (∀ range? : Option (CivilDate × CivilDate), ∀ rows : List PyVal,
        ∃ p, case1_filter_rows_by_date_range range? rows = Except.ok p) := by
  constructor
  · intro lo hi rows kept hno hloop
    simp only [case2_filter_rows_by_date_range, hno, Bool.false_eq_true, if_false, hloop]
    simp
  · intro range? rows
    cases range? with
    | none => exact ⟨(rows, false), rfl⟩
    | some ab => exact ⟨_, rfl⟩

/-- Witness for C1 at the scenario-B input. -/
theorem claim_C1_empty_after_filter_witness :
    case2_filter_rows_by_date_range
        (Option.some (⟨2025, 11, 1⟩, ⟨2025, 11, 30⟩))
        [PyVal.dateVal ⟨2025, 10, 15⟩] = Except.error PyExc.dateRangeNotFound ∧
    ∃ p, case1_filter_rows_by_date_range
        (Option.some (⟨2025, 11, 1⟩, ⟨2025, 11, 30⟩))
        [PyVal.dateVal ⟨2025, 10, 15⟩] = Except.ok p :=
  ⟨claim_C1_empty_after_filter.1 ⟨2025, 11, 1⟩ ⟨2025, 11, 30⟩
      [PyVal.dateVal ⟨2025, 10, 15⟩] [] (by decide) (by decide),
   claim_C1_empty_after_filter.2
      (Option.some (⟨2025, 11, 1⟩, ⟨2025, 11, 30⟩)) [PyVal.dateVal ⟨2025, 10, 15⟩]⟩

/-- C10 counterexample: in case2, a data-region row whose date cell holds
the text `"3000000"` — a positive numeric serial past year 9999 — makes the
scan raise an uncaught `OverflowError` (not the zero-rows signal), so the
genuinely unparsable row `"abc"` of the same sheet is not kept in any
output, and an all-unparsable sheet does not reach the zero-rows outcome. -/
theorem counterexample_C10_case2_overflow_crash :
    parse_date_from_value (PyVal.str (strLit "abc")) = Except.ok Option.none ∧
    case2_filter_rows_by_date_range
        (Option.some (⟨2025, 11, 1⟩, ⟨2025, 11, 30⟩))
        [PyVal.str (strLit "abc"), PyVal.str (strLit "3000000")] =
      Except.error PyExc.overflowError ∧
    PyExc.overflowError ≠ PyExc.dateRangeNotFound := by
  decide

/-- C10 (amended): in the case1 filter, every data-region row whose date
cell does not parse survives the scan and is excluded from the
`rows_in_range` count, and a sheet with only unparsable dates returns with
all rows kept and the zero-rows warning flagged; the case2 filter behaves
the same way provided no date cell is a positive textual serial past year
9999 (such a cell aborts the filter with an uncaught `OverflowError`
instead). -/
theorem claim_C10_unparsable_rows_kept :
    (∀ lo hi : CivilDate, ∀ rows : List PyVal, ∀ v ∈ rows,
        parse_date_value v = Option.none → v ∈ (case1FilterLoop lo hi rows).1) ∧
    (∀ lo hi : CivilDate, ∀ rows : List PyVal,
        (case1FilterLoop lo hi rows).2 =
          rows.countP (fun v =>
            match parse_date_value v with
            | Option.none => false
            | Option.some d => dateLE lo d && dateLE d hi)) ∧
    (∀ a b : CivilDate, ∀ rows : List PyVal,
        (∀ v ∈ rows, parse_date_value v = Option.none) →
        case1_filter_rows_by_date_range (Option.some (a, b)) rows =
          Except.ok (rows, true)) ∧
    (∀ lo hi : CivilDate, ∀ rows kept : List PyVal, ∀ n : Nat,
        case2FilterLoop lo hi rows = Except.ok (kept, n) →
        ∀ v ∈ rows, parse_date_from_value v = Except.ok Option.none → v ∈ kept) ∧
    (∀ a b : CivilDate, ∀ rows : List PyVal,
        (∀ v ∈ rows, parse_date_from_value v = Except.ok Option.none) →
        case2_filter_rows_by_date_range (Option.some (a, b)) rows =
          Except.error PyExc.dateRangeNotFound) := by
  refine ⟨?_, ?_, ?_, ?_, ?_⟩
  · intro lo hi rows v hv hp
    exact case1FilterLoop_keeps_unparsable lo hi rows v hv hp
  · intro lo hi rows
    exact case1FilterLoop_count lo hi rows
  · intro a b rows h
    simp only [case1_filter_rows_by_date_range]
    rw [case1FilterLoop_all_unparsable _ _ rows h]
    simp
  · intro lo hi rows kept n hres v hv hp
    exact case2FilterLoop_keeps_unparsable lo hi rows kept n hres v hv hp
  · intro a b rows h
    simp only [case2_filter_rows_by_date_range]
    rw [case2FilterLoop_all_unparsable _ _ rows h]
    simp

/-- Witness for C10 on a concrete sheet with one unparsable and one
out-of-range row. -/
theorem claim_C10_unparsable_rows_kept_witness :
    PyVal.str (strLit "nota")
        ∈ (case1FilterLoop ⟨2025, 11, 1⟩ ⟨2025, 11, 30⟩
            [PyVal.str (strLit "nota"), PyVal.dateVal ⟨2025, 10, 2⟩]).1 ∧
    case1_filter_rows_by_date_range (Option.some (⟨2025, 11, 1⟩, ⟨2025, 11, 30⟩))
        [PyVal.str (strLit "nota")] = Except.ok ([PyVal.str (strLit "nota")], true) ∧
    PyVal.str (strLit "nota")
        ∈ [PyVal.str (strLit "nota")] ∧
    case2_filter_rows_by_date_range (Option.some (⟨2025, 11, 1⟩, ⟨2025, 11, 30⟩))
        [PyVal.str (strLit "nota")] = Except.error PyExc.dateRangeNotFound :=
  ⟨claim_C10_unparsable_rows_kept.1 ⟨2025, 11, 1⟩ ⟨2025, 11, 30⟩
      [PyVal.str (strLit "nota"), PyVal.dateVal ⟨2025, 10, 2⟩]
      (PyVal.str (strLit "nota")) (by decide) (by decide),
   claim_C10_unparsable_rows_kept.2.2.1 ⟨2025, 11, 1⟩ ⟨2025, 11, 30⟩
      [PyVal.str (strLit "nota")] (by decide),
   claim_C10_unparsable_rows_kept.2.2.2.1 ⟨2025, 11, 1⟩ ⟨2025, 11, 30⟩
      [PyVal.str (strLit "nota")] [PyVal.str (strLit "nota")] 0 (by decide)
      (PyVal.str (strLit "nota")) (by decide) (by decide),
   claim_C10_unparsable_rows_kept.2.2.2.2 ⟨2025, 11, 1⟩ ⟨2025, 11, 30⟩
      [PyVal.str (strLit "nota")] (by decide)⟩

/-- `setCode` leaves other rows untouched. -/
theorem setCode_row_ne (w : WS) (i : Nat) (c : Str) (l : Nat) (h : l ≠ i) :
    (setCode w i c).row l = w.row l := by
  simp [setCode, h]

/-- `setCode` rewrites exactly the code cell of its target row. -/
theorem setCode_row_self (w : WS) (i : Nat) (c : Str) :
    (setCode w i c).row i = { w.row i with code := Option.some c } := by
  simp [setCode]

/-- `setDescr` leaves other rows untouched. -/
theorem setDescr_row_ne (w : WS) (i : Nat) (d : Str) (l : Nat) (h : l ≠ i) :
    (setDescr w i d).row l = w.row l := by
  simp [setDescr, h]

/-- `setDescr` rewrites exactly the description cell of its target row. -/
theorem setDescr_row_self (w : WS) (i : Nat) (d : Str) :
    (setDescr w i d).row i = { w.row i with descr := Option.some d } := by
  simp [setDescr]

/-- `transformPair` writes only at its two indices. -/
theorem transformPair_row_other (w : WS) (i j l : Nat) (hli : l ≠ i) (hlj : l ≠ j) :
    (transformPair w i j).row l = w.row l := by
  by_cases hA : (codeCellKey (w.row i).code = strLit "WD" ∨
      codeCellKey (w.row i).code = strLit "WC") ∧ codeCellKey (w.row j).code = strLit "3V"
  · simp only [transformPair, if_pos hA]
    rw [setDescr_row_ne _ _ _ _ hlj, setCode_row_ne _ _ _ _ hlj]
    rcases hA.1 with h1 | h1
    · rw [if_pos h1, setCode_row_ne _ _ _ _ hli]
    · have hne : codeCellKey (w.row i).code ≠ strLit "WD" := by rw [h1]; decide
      rw [if_neg hne, if_pos h1, setCode_row_ne _ _ _ _ hli]
  · by_cases hB : (codeCellKey (w.row j).code = strLit "WD" ∨
        codeCellKey (w.row j).code = strLit "WC") ∧ codeCellKey (w.row i).code = strLit "3V"
    · simp only [transformPair, if_neg hA, if_pos hB]
      rw [setDescr_row_ne _ _ _ _ hli, setCode_row_ne _ _ _ _ hli]
      rcases hB.1 with h1 | h1
      · rw [if_pos h1, setCode_row_ne _ _ _ _ hlj]
      · have hne : codeCellKey (w.row j).code ≠ strLit "WD" := by rw [h1]; decide
        rw [if_neg hne, if_pos h1, setCode_row_ne _ _ _ _ hlj]
    · simp only [transformPair, if_neg hA, if_neg hB]

/-- Full row-level description of `transformPair` in terms of the two rows
it reads. -/
theorem transformPair_row (w : WS) (i j l : Nat) (hij : i ≠ j) :
    (transformPair w i j).row l = pairRow (w.row i) (w.row j) i j l (w.row l) := by
  by_cases hA : (codeCellKey (w.row i).code = strLit "WD" ∨
      codeCellKey (w.row i).code = strLit "WC") ∧ codeCellKey (w.row j).code = strLit "3V"
  · rcases h1 : hA.1 with hWD | hWC
    · clear h1
      simp only [transformPair, pairRow, if_pos hA, if_pos hWD]
      have hread : ((setCode (setCode w i (strLit "T/D")) j (strLit "O/D")).row i).descr =
          (w.row i).descr := by
        rw [setCode_row_ne _ _ _ _ hij, setCode_row_self]
      rw [hread]
      by_cases hli : l = i
      · subst hli
        rw [if_pos rfl]
        rw [setDescr_row_ne _ _ _ _ hij, setCode_row_ne _ _ _ _ hij, setCode_row_self]
      · rw [if_neg hli]
        by_cases hlj : l = j
        · subst hlj
          rw [if_pos rfl]
          rw [setDescr_row_self, setCode_row_self, setCode_row_ne _ _ _ _ (Ne.symm hij)]
        · rw [if_neg hlj]
          rw [setDescr_row_ne _ _ _ _ hlj, setCode_row_ne _ _ _ _ hlj,
            setCode_row_ne _ _ _ _ hli]
    · clear h1
      have hne : codeCellKey (w.row i).code ≠ strLit "WD" := by rw [hWC]; decide
      simp only [transformPair, pairRow, if_pos hA, if_neg hne, if_pos hWC]
      have hread : ((setCode (setCode w i (strLit "T/C")) j (strLit "O/D")).row i).descr =
          (w.row i).descr := by
        rw [setCode_row_ne _ _ _ _ hij, setCode_row_self]
      rw [hread]
      by_cases hli : l = i
      · subst hli
        rw [if_pos rfl]
        rw [setDescr_row_ne _ _ _ _ hij, setCode_row_ne _ _ _ _ hij, setCode_row_self]
      · rw [if_neg hli]
        by_cases hlj : l = j
        · subst hlj
          rw [if_pos rfl]
          rw [setDescr_row_self, setCode_row_self, setCode_row_ne _ _ _ _ (Ne.symm hij)]
        · rw [if_neg hlj]
          rw [setDescr_row_ne _ _ _ _ hlj, setCode_row_ne _ _ _ _ hlj,
            setCode_row_ne _ _ _ _ hli]
  · by_cases hB : (codeCellKey (w.row j).code = strLit "WD" ∨
        codeCellKey (w.row j).code = strLit "WC") ∧ codeCellKey (w.row i).code = strLit "3V"
    · rcases h1 : hB.1 with hWD | hWC
      · clear h1
        simp only [transformPair, pairRow, if_neg hA, if_pos hB, if_pos hWD]
        have hread : ((setCode (setCode w j (strLit "T/D")) i (strLit "O/D")).row j).descr =
            (w.row j).descr := by
          rw [setCode_row_ne _ _ _ _ (Ne.symm hij), setCode_row_self]
        rw [hread]
        by_cases hlj : l = j
        · subst hlj
          rw [if_pos rfl]
          rw [setDescr_row_ne _ _ _ _ (Ne.symm hij), setCode_row_ne _ _ _ _ (Ne.symm hij),
            setCode_row_self]
        · rw [if_neg hlj]
          by_cases hli : l = i
          · subst hli
            rw [if_pos rfl]
            rw [setDescr_row_self, setCode_row_self, setCode_row_ne _ _ _ _ hij]
          · rw [if_neg hli]
            rw [setDescr_row_ne _ _ _ _ hli, setCode_row_ne _ _ _ _ hli,
              setCode_row_ne _ _ _ _ hlj]
      · clear h1
        have hne : codeCellKey (w.row j).code ≠ strLit "WD" := by rw [hWC]; decide
        simp only [transformPair, pairRow, if_neg hA, if_pos hB, if_neg hne, if_pos hWC]
        have hread : ((setCode (setCode w j (strLit "T/C")) i (strLit "O/D")).row j).descr =
            (w.row j).descr := by
          rw [setCode_row_ne _ _ _ _ (Ne.symm hij), setCode_row_self]
        rw [hread]
        by_cases hlj : l = j
        · subst hlj
          rw [if_pos rfl]
          rw [setDescr_row_ne _ _ _ _ (Ne.symm hij), setCode_row_ne _ _ _ _ (Ne.symm hij),
            setCode_row_self]
        · rw [if_neg hlj]
          by_cases hli : l = i
          · subst hli
            rw [if_pos rfl]
            rw [setDescr_row_self, setCode_row_self, setCode_row_ne _ _ _ _ hij]
          · rw [if_neg hli]
            rw [setDescr_row_ne _ _ _ _ hli, setCode_row_ne _ _ _ _ hli,
              setCode_row_ne _ _ _ _ hlj]
    · simp only [transformPair, pairRow, if_neg hA, if_neg hB]

/-- `lookup` at a matching head. -/
theorem lookup_cons_self (k : Str) (g : List Nat) (rest : List (Str × List Nat)) :
    List.lookup k ((k, g) :: rest) = Option.some g := by
  simp [List.lookup]

/-- `lookup` skips a non-matching head. -/
theorem lookup_cons_ne (k k0 : Str) (g0 : List Nat) (rest : List (Str × List Nat))
    (h : k ≠ k0) : List.lookup k ((k0, g0) :: rest) = List.lookup k rest := by
  have hb : (k == k0) = false := beq_eq_false_iff_ne.mpr h
  simp [List.lookup, hb]

/-- Looking a key up after a dict insertion. -/
theorem lookup_addToGroup (acc : List (Str × List Nat)) (k k' : Str) (i : Nat) :
    List.lookup k (addToGroup acc k' i) =
      (if k' = k then
        (match List.lookup k acc with
         | Option.none => Option.some [i]
         | Option.some g => Option.some (g ++ [i]))
       else List.lookup k acc) := by
  induction acc with
  | nil =>
      by_cases h : k' = k
      · subst h
        rw [if_pos rfl]
        show List.lookup k' [(k', [i])] = _
        rw [lookup_cons_self]
        rfl
      · rw [if_neg h]
        show List.lookup k [(k', [i])] = List.lookup k []
        rw [lookup_cons_ne _ _ _ _ (fun hk => h hk.symm)]
  | cons e rest ih =>
      obtain ⟨k0, g0⟩ := e
      simp only [addToGroup]
      by_cases h0 : k0 = k'
      · rw [if_pos h0]
        by_cases hk : k0 = k
        · subst hk
          rw [lookup_cons_self, if_pos h0.symm, lookup_cons_self]
        · have hk' : k ≠ k0 := fun h => hk h.symm
          rw [lookup_cons_ne _ _ _ _ hk']
          rw [if_neg (fun h : k' = k => hk (h0.trans h)), lookup_cons_ne _ _ _ _ hk']
      · rw [if_neg h0]
        by_cases hk : k0 = k
        · subst hk
          rw [lookup_cons_self]
          rw [if_neg (fun h : k' = k0 => h0 h.symm), lookup_cons_self]
        · have hk' : k ≠ k0 := fun h => hk h.symm
          rw [lookup_cons_ne _ _ _ _ hk', ih, lookup_cons_ne _ _ _ _ hk']

/-- A key is absent from a dict exactly when `lookup` misses. -/
theorem lookup_eq_none_iff (acc : List (Str × List Nat)) (k : Str) :
    List.lookup k acc = Option.none ↔ k ∉ acc.map Prod.fst := by
  induction acc with
  | nil => simp [List.lookup]
  | cons e rest ih =>
      obtain ⟨k0, g0⟩ := e
      simp only [List.map_cons, List.mem_cons]
      by_cases h : k = k0
      · subst h
        rw [lookup_cons_self]
        simp
      · rw [lookup_cons_ne _ _ _ _ h, ih]
        constructor
        · intro hk hor
          rcases hor with hor | hor
          · exact h hor
          · exact hk hor
        · intro hk hmem
          exact hk (Or.inr hmem)

/-- Keys after a dict insertion. -/
theorem keys_addToGroup (acc : List (Str × List Nat)) (k : Str) (i : Nat) :
    (addToGroup acc k i).map Prod.fst =
      (if List.lookup k acc = Option.none then acc.map Prod.fst ++ [k]
       else acc.map Prod.fst) := by
  induction acc with
  | nil => simp [addToGroup, List.lookup]
  | cons e rest ih =>
      obtain ⟨k0, g0⟩ := e
      simp only [addToGroup]
      by_cases h : k0 = k
      · subst h
        rw [if_pos rfl, lookup_cons_self]
        simp
      · rw [if_neg h, lookup_cons_ne _ _ _ _ (fun hk => h hk.symm)]
        simp only [List.map_cons, ih]
        by_cases hn : List.lookup k rest = Option.none
        · rw [if_pos hn, if_pos hn]
          rfl
        · rw [if_neg hn, if_neg hn]

/-- Dict insertion preserves distinctness of keys. -/
theorem nodup_keys_addToGroup (acc : List (Str × List Nat)) (k : Str) (i : Nat)
    (h : (acc.map Prod.fst).Nodup) : ((addToGroup acc k i).map Prod.fst).Nodup := by
  rw [keys_addToGroup]
  by_cases hn : List.lookup k acc = Option.none
  · rw [if_pos hn]
    have hk : k ∉ acc.map Prod.fst := (lookup_eq_none_iff acc k).mp hn
    rw [List.nodup_append]
    refine ⟨h, List.nodup_singleton k, ?_⟩
    intro a ha hak
    cases hak with
    | head => exact hk ha
    | tail _ h3 => cases h3
  · rw [if_neg hn]
    exact h

/-- A successful lookup is a member. -/
theorem mem_of_lookup_eq_some (acc : List (Str × List Nat)) (k : Str) (g : List Nat)
    (h : List.lookup k acc = Option.some g) : (k, g) ∈ acc := by
  induction acc with
  | nil => cases h
  | cons e rest ih =>
      obtain ⟨k0, g0⟩ := e
      by_cases hk : k = k0
      · subst hk
        rw [lookup_cons_self] at h
        cases h
        exact List.mem_cons_self _ _
      · rw [lookup_cons_ne _ _ _ _ hk] at h
        exact List.mem_cons_of_mem _ (ih h)

/-- Under distinct keys, membership determines the lookup. -/
theorem lookup_of_mem_nodup (acc : List (Str × List Nat)) (k : Str) (g : List Nat)
    (hnd : (acc.map Prod.fst).Nodup) (h : (k, g) ∈ acc) :
    List.lookup k acc = Option.some g := by
  induction acc with
  | nil => cases h
  | cons e rest ih =>
      obtain ⟨k0, g0⟩ := e
      rcases List.mem_cons.mp h with heq | hmem
      · cases heq
        exact lookup_cons_self _ _ _
      · simp only [List.map_cons, List.nodup_cons] at hnd
        have hk : k ≠ k0 := by
          intro hk0
          subst hk0
          exact hnd.1 (by simpa using List.mem_map_of_mem Prod.fst hmem)
        rw [lookup_cons_ne _ _ _ _ hk]
        exact ih hnd.2 hmem

/-- Unfolding one step of the group-building scan. -/
theorem buildGroupsPrefix_succ (w : WS) (m : Nat) :
    buildGroupsPrefix w (m + 1) =
      (match refKey (w.row m) with
       | Option.none => buildGroupsPrefix w m
       | Option.some k => addToGroup (buildGroupsPrefix w m) k m) := by
  unfold buildGroupsPrefix
  rw [List.range_succ, List.foldl_append]
  rfl

/-- The group stored under key `k` after scanning `m` rows is exactly the
list of scanned row indices whose reference key is `k`. -/
theorem lookup_buildGroupsPrefix (w : WS) (m : Nat) (k : Str) :
    List.lookup k (buildGroupsPrefix w m) =
      (if (List.range m).filter (fun i => refKey (w.row i) = Option.some k) = [] then
        Option.none
       else
        Option.some ((List.range m).filter (fun i => refKey (w.row i) = Option.some k))) := by
  induction m with
  | zero => simp [buildGroupsPrefix, List.lookup]
  | succ m ih =>
      rw [buildGroupsPrefix_succ, List.range_succ, List.filter_append]
      cases hm : refKey (w.row m) with
      | none =>
          have hf : List.filter (fun i => refKey (w.row i) = Option.some k) [m] = [] := by
            simp [List.filter, hm]
          rw [hf, List.append_nil, ih]
      | some k' =>
          by_cases hkk : k' = k
          · subst hkk
            have hf : List.filter (fun i => refKey (w.row i) = Option.some k') [m] = [m] := by
              simp [List.filter, hm]
            rw [hf, lookup_addToGroup, if_pos rfl, ih]
            by_cases he : (List.range m).filter (fun i => refKey (w.row i) = Option.some k') = []
            · rw [if_pos he, he]
              simp
            · rw [if_neg he]
              rw [if_neg (by simp)]
          · have hf : List.filter (fun i => refKey (w.row i) = Option.some k) [m] = [] := by
              simp only [List.filter]
              rw [decide_eq_false (by simp [hm, hkk])]
            rw [hf, List.append_nil, lookup_addToGroup, if_neg hkk, ih]

/-- Keys stay distinct throughout the scan. -/
theorem nodup_keys_buildGroupsPrefix (w : WS) (m : Nat) :
    ((buildGroupsPrefix w m).map Prod.fst).Nodup := by
  induction m with
  | zero => simp [buildGroupsPrefix]
  | succ m ih =>
      rw [buildGroupsPrefix_succ]
      cases hm : refKey (w.row m) with
      | none => exact ih
      | some k => exact nodup_keys_addToGroup _ _ _ ih

/-- `transformPair` preserves the number of rows. -/
theorem transformPair_n (w : WS) (i j : Nat) : (transformPair w i j).n = w.n := by
  by_cases hA : (codeCellKey (w.row i).code = strLit "WD" ∨
      codeCellKey (w.row i).code = strLit "WC") ∧ codeCellKey (w.row j).code = strLit "3V"
  · simp only [transformPair, if_pos hA]
    rcases hA.1 with h1 | h1
    · rw [if_pos h1]
      rfl
    · have hne : codeCellKey (w.row i).code ≠ strLit "WD" := by rw [h1]; decide
      rw [if_neg hne, if_pos h1]
      rfl
  · by_cases hB : (codeCellKey (w.row j).code = strLit "WD" ∨
        codeCellKey (w.row j).code = strLit "WC") ∧ codeCellKey (w.row i).code = strLit "3V"
    · simp only [transformPair, if_neg hA, if_pos hB]
      rcases hB.1 with h1 | h1
      · rw [if_pos h1]
        rfl
      · have hne : codeCellKey (w.row j).code ≠ strLit "WD" := by rw [h1]; decide
        rw [if_neg hne, if_pos h1]
        rfl
    · simp only [transformPair, if_neg hA, if_neg hB]

/-- `applyGroup` preserves the number of rows. -/
theorem applyGroup_n (w : WS) (e : Str × List Nat) : (applyGroup w e).n = w.n := by
  unfold applyGroup
  split
  · exact transformPair_n _ _ _
  · rfl

/-- `applyGroup` writes only at the indices of its group. -/
theorem applyGroup_row_other (w : WS) (e : Str × List Nat) (l : Nat) (hl : l ∉ e.2) :
    (applyGroup w e).row l = w.row l := by
  unfold applyGroup
  split
  · next i j heq =>
      have hli : l ≠ i := by
        rintro rfl
        exact hl (heq ▸ List.mem_cons_self _ _)
      have hlj : l ≠ j := by
        rintro rfl
        exact hl (heq ▸ List.mem_cons_of_mem _ (List.mem_cons_self _ _))
      exact transformPair_row_other w i j l hli hlj
  · rfl

/-- Indices in a reference group carry that group's key. -/
theorem refKey_of_mem_groupIndices (w : WS) (k : Str) (m : Nat)
    (hm : m ∈ groupIndices w k) : refKey (w.row m) = Option.some k := by
  have := List.of_mem_filter hm
  exact of_decide_eq_true this

/-- Indices in a reference group lie below the region size. -/
theorem lt_of_mem_groupIndices (w : WS) (k : Str) (m : Nat)
    (hm : m ∈ groupIndices w k) : m < w.n :=
  List.mem_range.mp (List.mem_filter.mp hm).1

/-- Reference groups never repeat an index. -/
theorem nodup_groupIndices (w : WS) (k : Str) : (groupIndices w k).Nodup :=
  List.Nodup.filter _ (List.nodup_range w.n)

/-- The fold over the group dict, described row by row: a row inside some
group gets that group's transformation (computed against the original
sheet), every other row keeps its current value. -/
theorem foldl_applyGroup_row (w : WS) (G : List (Str × List Nat)) :
    ∀ cur : WS,
    (∀ e ∈ G, e.2 = groupIndices w e.1) →
    (G.map Prod.fst).Nodup →
    (∀ e ∈ G, ∀ m ∈ e.2, cur.row m = w.row m) →
    ∀ l, (G.foldl applyGroup cur).row l =
      (match G.find? (fun e => e.2.contains l) with
       | Option.some e => (applyGroup w e).row l
       | Option.none => cur.row l) := by
  induction G with
  | nil =>
      intro cur _ _ _ l
      rfl
  | cons e G' ih =>
      intro cur hvals hnd hagree l
      have hval_e : e.2 = groupIndices w e.1 := hvals e (List.mem_cons_self _ _)
      have hnd2 : (G'.map Prod.fst).Nodup := by
        simp only [List.map_cons, List.nodup_cons] at hnd
        exact hnd.2
      have hkey : e.1 ∉ G'.map Prod.fst := by
        simp only [List.map_cons, List.nodup_cons] at hnd
        exact hnd.1
      have hdisj : ∀ e' ∈ G', ∀ m ∈ e'.2, m ∉ e.2 := by
        intro e' he' m hm hmc
        have h1 : refKey (w.row m) = Option.some e'.1 := by
          have hv := hvals e' (List.mem_cons_of_mem _ he')
          exact refKey_of_mem_groupIndices w e'.1 m (hv ▸ hm)
        have h2 : refKey (w.row m) = Option.some e.1 :=
          refKey_of_mem_groupIndices w e.1 m (hval_e ▸ hmc)
        have hk : e'.1 = e.1 := Option.some.inj (h1.symm.trans h2)
        exact hkey (hk ▸ List.mem_map_of_mem Prod.fst he')
      have hagree2 : ∀ e' ∈ G', ∀ m ∈ e'.2, (applyGroup cur e).row m = w.row m := by
        intro e' he' m hm
        rw [applyGroup_row_other cur e m (hdisj e' he' m hm)]
        exact hagree e' (List.mem_cons_of_mem _ he') m hm
      have hrec := ih (applyGroup cur e)
        (fun e' he' => hvals e' (List.mem_cons_of_mem _ he')) hnd2 hagree2 l
      simp only [List.foldl_cons]
      rw [hrec]
      by_cases hc : e.2.contains l = true
      · have hlmem : l ∈ e.2 := List.elem_iff.mp hc
        have hnone : G'.find? (fun x => x.2.contains l) = Option.none := by
          apply List.find?_eq_none.mpr
          intro e' he' hpe'
          exact hdisj e' he' l (List.elem_iff.mp hpe') hlmem
        rw [List.find?_cons_of_pos (p := fun x => x.2.contains l) G' hc, hnone]
        show (applyGroup cur e).row l = (applyGroup w e).row l
        have hagree_e : ∀ m ∈ e.2, cur.row m = w.row m :=
          fun m hm => hagree e (List.mem_cons_self _ _) m hm
        unfold applyGroup
        split
        · next i j heq =>
            have hi : i ∈ e.2 := by rw [heq]; exact List.mem_cons_self _ _
            have hj : j ∈ e.2 := by
              rw [heq]
              exact List.mem_cons_of_mem _ (List.mem_cons_self _ _)
            have hij : i ≠ j := by
              have hnodup : e.2.Nodup := by
                rw [hval_e]
                exact nodup_groupIndices w e.1
              rw [heq] at hnodup
              rcases List.nodup_cons.mp hnodup with ⟨hni, _⟩
              intro hcon
              apply hni
              rw [hcon]
              exact List.mem_cons_self _ _
            rw [transformPair_row cur i j l hij, transformPair_row w i j l hij]
            rw [hagree_e i hi, hagree_e j hj, hagree_e l hlmem]
        · exact hagree_e l hlmem
      · rw [List.find?_cons_of_neg (p := fun x => x.2.contains l) G' hc]
        cases hf : G'.find? (fun x => x.2.contains l) with
        | some e' => rfl
        | none =>
            exact applyGroup_row_other cur e l (fun hmem => hc (List.elem_iff.mpr hmem))

/-- `pairRow` leaves rows other than the two group members untouched. -/
theorem pairRow_other (ri rj : WRow) (i j l : Nat) (orig : WRow)
    (hli : l ≠ i) (hlj : l ≠ j) : pairRow ri rj i j l orig = orig := by
  unfold pairRow
  by_cases hA : (codeCellKey ri.code = strLit "WD" ∨ codeCellKey ri.code = strLit "WC") ∧
      codeCellKey rj.code = strLit "3V"
  · rw [if_pos hA, if_neg hli, if_neg hlj]
  · rw [if_neg hA]
    by_cases hB : (codeCellKey rj.code = strLit "WD" ∨ codeCellKey rj.code = strLit "WC") ∧
        codeCellKey ri.code = strLit "3V"
    · rw [if_pos hB, if_neg hlj, if_neg hli]
    · rw [if_neg hB]

/-- Every entry of the `reference_groups` dict holds exactly the indices
carrying its key. -/
theorem buildGroups_entries (w : WS) :
    ∀ e ∈ buildGroups w, e.2 = groupIndices w e.1 := by
  intro e he
  obtain ⟨k, g⟩ := e
  have hnd : ((buildGroups w).map Prod.fst).Nodup := nodup_keys_buildGroupsPrefix w w.n
  have hlk : List.lookup k (buildGroups w) = Option.some g :=
    lookup_of_mem_nodup _ k g hnd he
  have hchar := lookup_buildGroupsPrefix w w.n k
  rw [show buildGroupsPrefix w w.n = buildGroups w from rfl] at hchar
  rw [hlk] at hchar
  by_cases hf : (List.range w.n).filter (fun i => refKey (w.row i) = Option.some k) = []
  · rw [if_pos hf] at hchar
    cases hchar
  · rw [if_neg hf] at hchar
    exact Option.some.inj hchar

/-- Every row with a non-empty reference key appears in the dict under its
key, together with its whole group. -/
theorem buildGroups_complete (w : WS) (l : Nat) (k : Str) (hl : l < w.n)
    (hk : refKey (w.row l) = Option.some k) :
    (k, groupIndices w k) ∈ buildGroups w := by
  have hmem : l ∈ groupIndices w k :=
    List.mem_filter.mpr ⟨List.mem_range.mpr hl, decide_eq_true hk⟩
  have hne : groupIndices w k ≠ [] := by
    intro h
    rw [h] at hmem
    cases hmem
  have hchar := lookup_buildGroupsPrefix w w.n k
  rw [show buildGroupsPrefix w w.n = buildGroups w from rfl] at hchar
  rw [show (List.range w.n).filter (fun i => refKey (w.row i) = Option.some k) =
      groupIndices w k from rfl] at hchar
  rw [if_neg hne] at hchar
  exact mem_of_lookup_eq_some _ _ _ hchar

/-- Per-row characterization of `_process_duplicate_references`: each row's
final value is determined by its reference group alone, as described by
`duplicate_references_row_outcome`. -/
theorem process_duplicate_references_row_eq (w : WS) (l : Nat) :
    (process_duplicate_references w).row l = duplicate_references_row_outcome w l := by
  have hfold := foldl_applyGroup_row w (buildGroups w) w (buildGroups_entries w)
    (nodup_keys_buildGroupsPrefix w w.n) (fun _ _ _ _ => rfl) l
  unfold process_duplicate_references duplicate_references_row_outcome
  rw [hfold]
  cases hk : refKey (w.row l) with
  | none =>
      have hnone : (buildGroups w).find? (fun x => x.2.contains l) = Option.none := by
        apply List.find?_eq_none.mpr
        intro e he hpe
        have hlmem : l ∈ e.2 := List.elem_iff.mp hpe
        have hsome := refKey_of_mem_groupIndices w e.1 l
          ((buildGroups_entries w e he) ▸ hlmem)
        rw [hk] at hsome
        cases hsome
      rw [hnone]
  | some k =>
      by_cases hl : l < w.n
      · have hmem_l : l ∈ groupIndices w k :=
          List.mem_filter.mpr ⟨List.mem_range.mpr hl, decide_eq_true hk⟩
        have hentry := buildGroups_complete w l k hl hk
        cases hf : (buildGroups w).find? (fun x => x.2.contains l) with
        | none =>
            exfalso
            exact List.find?_eq_none.mp hf _ hentry (List.elem_iff.mpr hmem_l)
        | some e =>
            have he := List.mem_of_find?_eq_some hf
            have hpe := List.find?_some hf
            have hlmem : l ∈ e.2 := List.elem_iff.mp hpe
            have hval := buildGroups_entries w e he
            have hkey : e.1 = k := by
              have hsome := refKey_of_mem_groupIndices w e.1 l (hval ▸ hlmem)
              rw [hk] at hsome
              exact (Option.some.inj hsome).symm
            have hval2 : e.2 = groupIndices w k := by rw [hval, hkey]
            show (applyGroup w e).row l =
              (match groupIndices w k with
               | [i, j] => pairRow (w.row i) (w.row j) i j l (w.row l)
               | _ => w.row l)
            unfold applyGroup
            rw [hval2]
            cases hg : groupIndices w k with
            | nil => rfl
            | cons i rest =>
                cases rest with
                | nil => rfl
                | cons j rest2 =>
                    cases rest2 with
                    | nil =>
                        have hij : i ≠ j := by
                          have hnodup : (groupIndices w k).Nodup := nodup_groupIndices w k
                          rw [hg] at hnodup
                          rcases List.nodup_cons.mp hnodup with ⟨hni, _⟩
                          intro hcon
                          apply hni
                          rw [hcon]
                          exact List.mem_cons_self _ _
                        exact transformPair_row w i j l hij
                    | cons x rest3 => rfl
      · have hnone : (buildGroups w).find? (fun x => x.2.contains l) = Option.none := by
          apply List.find?_eq_none.mpr
          intro e he hpe
          have hlmem : l ∈ e.2 := List.elem_iff.mp hpe
          exact hl (lt_of_mem_groupIndices w e.1 l ((buildGroups_entries w e he) ▸ hlmem))
        rw [hnone]
        show w.row l =
          (match groupIndices w k with
           | [i, j] => pairRow (w.row i) (w.row j) i j l (w.row l)
           | _ => w.row l)
        cases hg : groupIndices w k with
        | nil => rfl
        | cons i rest =>
            cases rest with
            | nil => rfl
            | cons j rest2 =>
                cases rest2 with
                | nil =>
                    have hi : i < w.n := lt_of_mem_groupIndices w k i
                      (by rw [hg]; exact List.mem_cons_self _ _)
                    have hj : j < w.n := lt_of_mem_groupIndices w k j
                      (by rw [hg]; exact List.mem_cons_of_mem _ (List.mem_cons_self _ _))
                    exact (pairRow_other (w.row i) (w.row j) i j l (w.row l)
                      (by omega) (by omega)).symm
                | cons x rest3 => rfl

/-- Values of `pairRow` at the two group members when the first row carries
the WD/WC code and the second carries 3V. -/
theorem pairRow_wd_first (ri rj : WRow) (i j : Nat) (hij : i ≠ j)
    (hA1 : codeCellKey ri.code = strLit "WD" ∨ codeCellKey ri.code = strLit "WC")
    (hA2 : codeCellKey rj.code = strLit "3V") (orig : WRow) :
    pairRow ri rj i j i orig =
      { orig with code := Option.some (wdTag (codeCellKey ri.code)) } ∧
    pairRow ri rj i j j orig =
      { orig with code := Option.some (strLit "O/D"),
                  descr := Option.some (strLit "Comisión bancaria " ++ descrCellText ri.descr) } := by
  constructor
  · unfold pairRow
    rw [if_pos (And.intro hA1 hA2), if_pos rfl]
    rfl
  · unfold pairRow
    rw [if_pos (And.intro hA1 hA2), if_neg (Ne.symm hij), if_pos rfl]

/-- Values of `pairRow` at the two group members when the first row carries
3V and the second carries the WD/WC code. -/
theorem pairRow_3v_first (ri rj : WRow) (i j : Nat) (hij : i ≠ j)
    (hB1 : codeCellKey rj.code = strLit "WD" ∨ codeCellKey rj.code = strLit "WC")
    (hB2 : codeCellKey ri.code = strLit "3V") (orig : WRow) :
    pairRow ri rj i j j orig =
      { orig with code := Option.some (wdTag (codeCellKey rj.code)) } ∧
    pairRow ri rj i j i orig =
      { orig with code := Option.some (strLit "O/D"),
                  descr := Option.some (strLit "Comisión bancaria " ++ descrCellText rj.descr) } := by
  have hnA : ¬((codeCellKey ri.code = strLit "WD" ∨ codeCellKey ri.code = strLit "WC") ∧
      codeCellKey rj.code = strLit "3V") := by
    intro hcon
    rw [hB2] at hcon
    rcases hcon.1 with h | h <;> exact absurd h (by decide)
  constructor
  · unfold pairRow
    rw [if_neg hnA, if_pos (And.intro hB1 hB2), if_pos rfl]
    rfl
  · unfold pairRow
    rw [if_neg hnA, if_pos (And.intro hB1 hB2), if_neg hij, if_pos rfl]

/-- `pairRow` on a code combination that is not a WD/WC + 3V pair leaves the
row untouched. -/
theorem pairRow_no_match (ri rj : WRow) (i j l : Nat) (orig : WRow)
    (hnA : ¬((codeCellKey ri.code = strLit "WD" ∨ codeCellKey ri.code = strLit "WC") ∧
        codeCellKey rj.code = strLit "3V"))
    (hnB : ¬((codeCellKey rj.code = strLit "WD" ∨ codeCellKey rj.code = strLit "WC") ∧
        codeCellKey ri.code = strLit "3V")) :
    pairRow ri rj i j l orig = orig := by
  unfold pairRow
  rw [if_neg hnA, if_neg hnB]

/-- The outcome of a two-member reference group, extracted from the per-row
characterization. -/
theorem outcome_of_pair (w : WS) (k : Str) (i j l : Nat)
    (hg : groupIndices w k = [i, j]) (hl : l ∈ groupIndices w k) :
    (process_duplicate_references w).row l =
      pairRow (w.row i) (w.row j) i j l (w.row l) := by
  have hrk : refKey (w.row l) = Option.some k := refKey_of_mem_groupIndices w k l hl
  rw [process_duplicate_references_row_eq w l]
  unfold duplicate_references_row_outcome
  rw [hrk]
  show (match groupIndices w k with
        | [i, j] => pairRow (w.row i) (w.row j) i j l (w.row l)
        | _ => w.row l) = _
  rw [hg]

/-- Members of a two-element group are distinct. -/
theorem pair_group_ne (w : WS) (k : Str) (i j : Nat)
    (hg : groupIndices w k = [i, j]) : i ≠ j := by
  have hnodup : (groupIndices w k).Nodup := nodup_groupIndices w k
  rw [hg] at hnodup
  rcases List.nodup_cons.mp hnodup with ⟨hni, _⟩
  intro hcon
  apply hni
  rw [hcon]
  exact List.mem_cons_self _ _

/-- C2 (amended): for every reference group of exactly two rows whose codes
are WD (or WC) and 3V, the pass rewrites the WD code to `T/D` (WC to
`T/C`), the 3V code to `O/D`, and the 3V row's description to
`"Comisión bancaria "` followed by the WD/WC row's description stripped of
surrounding whitespace; groups of any other size or code combination, and
rows without a non-empty reference, are left unchanged. -/
theorem claim_C2_duplicate_reference_pairing :
    (∀ w : WS, ∀ k : Str, ∀ i j : Nat, groupIndices w k = [i, j] →
      (codeCellKey (w.row i).code = strLit "WD" ∨
        codeCellKey (w.row i).code = strLit "WC") →
      codeCellKey (w.row j).code = strLit "3V" →
      (process_duplicate_references w).row i =
        { w.row i with code := Option.some (wdTag (codeCellKey (w.row i).code)) } ∧
      (process_duplicate_references w).row j =
        { w.row j with code := Option.some (strLit "O/D"),
                       descr := Option.some (strLit "Comisión bancaria " ++ descrCellText (w.row i).descr) }) ∧
    (∀ w : WS, ∀ k : Str, ∀ i j : Nat, groupIndices w k = [i, j] →
      (codeCellKey (w.row j).code = strLit "WD" ∨
        codeCellKey (w.row j).code = strLit "WC") →
      codeCellKey (w.row i).code = strLit "3V" →
      (process_duplicate_references w).row j =
        { w.row j with code := Option.some (wdTag (codeCellKey (w.row j).code)) } ∧
      (process_duplicate_references w).row i =
        { w.row i with code := Option.some (strLit "O/D"),
                       descr := Option.some (strLit "Comisión bancaria " ++ descrCellText (w.row j).descr) }) ∧
    (∀ w : WS, ∀ k : Str, ∀ i j l : Nat, groupIndices w k = [i, j] →
      l ∈ groupIndices w k →
      ¬((codeCellKey (w.row i).code = strLit "WD" ∨
          codeCellKey (w.row i).code = strLit "WC") ∧
        codeCellKey (w.row j).code = strLit "3V") →
      ¬((codeCellKey (w.row j).code = strLit "WD" ∨
          codeCellKey (w.row j).code = strLit "WC") ∧
        codeCellKey (w.row i).code = strLit "3V") →
      (process_duplicate_references w).row l = w.row l) ∧
    (∀ w : WS, ∀ l : Nat, ∀ k : Str, refKey (w.row l) = Option.some k →
      (groupIndices w k).length ≠ 2 →
      (process_duplicate_references w).row l = w.row l) ∧
    (∀ w : WS, ∀ l : Nat, refKey (w.row l) = Option.none →
      (process_duplicate_references w).row l = w.row l) := by
  refine ⟨?_, ?_, ?_, ?_, ?_⟩
  · intro w k i j hg hc1 hc2
    have hij := pair_group_ne w k i j hg
    have hi : i ∈ groupIndices w k := by rw [hg]; exact List.mem_cons_self _ _
    have hj : j ∈ groupIndices w k := by
      rw [hg]
      exact List.mem_cons_of_mem _ (List.mem_cons_self _ _)
    constructor
    · rw [outcome_of_pair w k i j i hg hi]
      exact (pairRow_wd_first (w.row i) (w.row j) i j hij hc1 hc2 (w.row i)).1
    · rw [outcome_of_pair w k i j j hg hj]
      exact (pairRow_wd_first (w.row i) (w.row j) i j hij hc1 hc2 (w.row j)).2
  · intro w k i j hg hc1 hc2
    have hij := pair_group_ne w k i j hg
    have hi : i ∈ groupIndices w k := by rw [hg]; exact List.mem_cons_self _ _
    have hj : j ∈ groupIndices w k := by
      rw [hg]
      exact List.mem_cons_of_mem _ (List.mem_cons_self _ _)
    constructor
    · rw [outcome_of_pair w k i j j hg hj]
      exact (pairRow_3v_first (w.row i) (w.row j) i j hij hc1 hc2 (w.row j)).1
    · rw [outcome_of_pair w k i j i hg hi]
      exact (pairRow_3v_first (w.row i) (w.row j) i j hij hc1 hc2 (w.row i)).2
  · intro w k i j l hg hl hnA hnB
    rw [outcome_of_pair w k i j l hg hl]
    exact pairRow_no_match (w.row i) (w.row j) i j l (w.row l) hnA hnB
  · intro w l k hrk hlen
    rw [process_duplicate_references_row_eq w l]
    unfold duplicate_references_row_outcome
    rw [hrk]
    show (match groupIndices w k with
          | [i, j] => pairRow (w.row i) (w.row j) i j l (w.row l)
          | _ => w.row l) = _
    cases hg : groupIndices w k with
    | nil => rfl
    | cons i rest =>
        cases rest with
        | nil => rfl
        | cons j rest2 =>
            cases rest2 with
            | nil =>
                exfalso
                apply hlen
                rw [hg]
                rfl
            | cons x rest3 => rfl
  · intro w l hrk
    rw [process_duplicate_references_row_eq w l]
    unfold duplicate_references_row_outcome
    rw [hrk]

/-- Witness for C2 on the end-to-end scenario A pair: references
`"REF1"`, codes `WD` and `3v`, descriptions without surrounding spaces. -/
theorem claim_C2_duplicate_reference_pairing_witness :
    (process_duplicate_references (mkWS
        [⟨Option.some (strLit "REF1"), Option.some (strLit "WD"),
            Option.some (strLit "Pago proveedor")⟩,
         ⟨Option.some (strLit "REF1"), Option.some (strLit "3v"),
            Option.some (strLit "nota")⟩])).row 0 =
      ⟨Option.some (strLit "REF1"), Option.some (strLit "T/D"),
        Option.some (strLit "Pago proveedor")⟩ ∧
    (process_duplicate_references (mkWS
        [⟨Option.some (strLit "REF1"), Option.some (strLit "WD"),
            Option.some (strLit "Pago proveedor")⟩,
         ⟨Option.some (strLit "REF1"), Option.some (strLit "3v"),
            Option.some (strLit "nota")⟩])).row 1 =
      ⟨Option.some (strLit "REF1"), Option.some (strLit "O/D"),
        Option.some (strLit "Comisión bancaria Pago proveedor")⟩ := by
  have h := claim_C2_duplicate_reference_pairing.1 (mkWS
      [⟨Option.some (strLit "REF1"), Option.some (strLit "WD"),
          Option.some (strLit "Pago proveedor")⟩,
       ⟨Option.some (strLit "REF1"), Option.some (strLit "3v"),
          Option.some (strLit "nota")⟩])
    (strLit "REF1") 0 1 (by decide) (by decide) (by decide)
  constructor
  · rw [h.1]
    decide
  · rw [h.2]
    decide

/-- C2 counterexample to the unamended wording: when the WD description has
surrounding whitespace (here `" Pago "`), the rewritten 3V description is
the fixed label followed by the STRIPPED description, not by the original
one. -/
theorem counterexample_C2_description_stripped :
    ((process_duplicate_references (mkWS
        [⟨Option.some (strLit "R9"), Option.some (strLit "WD"),
            Option.some (strLit " Pago ")⟩,
         ⟨Option.some (strLit "R9"), Option.some (strLit "3V"),
            Option.some (strLit "x")⟩])).row 1).descr =
      Option.some (strLit "Comisión bancaria Pago") ∧
    strLit "Comisión bancaria " ++ strLit " Pago " = strLit "Comisión bancaria  Pago " ∧
    Option.some (strLit "Comisión bancaria Pago") ≠
      (Option.some (strLit "Comisión bancaria  Pago ") : Option Str) := by
  decide

/-- C7: duplicate-reference pairing is order-independent — for two records
sharing a non-empty reference with codes WD/WC and 3V, processing the
two-row region in either file order yields identical codes and identical
rewritten descriptions on each record. -/
theorem claim_C7_order_independence :
    ∀ a b : WRow, ∀ k : Str, refKey a = Option.some k → refKey b = Option.some k →
    (codeCellKey a.code = strLit "WD" ∨ codeCellKey a.code = strLit "WC") →
    codeCellKey b.code = strLit "3V" →
    (process_duplicate_references (mkWS [a, b])).row 0 =
        (process_duplicate_references (mkWS [b, a])).row 1 ∧
    (process_duplicate_references (mkWS [a, b])).row 1 =
        (process_duplicate_references (mkWS [b, a])).row 0 := by
  intro a b k hka hkb hca hcb
  have hrow0ab : (mkWS [a, b]).row 0 = a := rfl
  have hrow1ab : (mkWS [a, b]).row 1 = b := rfl
  have hrow0ba : (mkWS [b, a]).row 0 = b := rfl
  have hrow1ba : (mkWS [b, a]).row 1 = a := rfl
  have hg1 : groupIndices (mkWS [a, b]) k = [0, 1] := by
    unfold groupIndices
    rw [show (mkWS [a, b]).n = 2 from rfl]
    rw [show List.range 2 = [0, 1] from rfl]
    have h0 : refKey ((mkWS [a, b]).row 0) = Option.some k := hka
    have h1 : refKey ((mkWS [a, b]).row 1) = Option.some k := hkb
    simp [List.filter, h0, h1]
  have hg2 : groupIndices (mkWS [b, a]) k = [0, 1] := by
    unfold groupIndices
    rw [show (mkWS [b, a]).n = 2 from rfl]
    rw [show List.range 2 = [0, 1] from rfl]
    have h0 : refKey ((mkWS [b, a]).row 0) = Option.some k := hkb
    have h1 : refKey ((mkWS [b, a]).row 1) = Option.some k := hka
    simp [List.filter, h0, h1]
  have h01 : (0 : Nat) ≠ 1 := by decide
  have hmem0ab : (0 : Nat) ∈ groupIndices (mkWS [a, b]) k := by
    rw [hg1]
    exact List.mem_cons_self _ _
  have hmem1ab : (1 : Nat) ∈ groupIndices (mkWS [a, b]) k := by
    rw [hg1]
    exact List.mem_cons_of_mem _ (List.mem_cons_self _ _)
  have hmem0ba : (0 : Nat) ∈ groupIndices (mkWS [b, a]) k := by
    rw [hg2]
    exact List.mem_cons_self _ _
  have hmem1ba : (1 : Nat) ∈ groupIndices (mkWS [b, a]) k := by
    rw [hg2]
    exact List.mem_cons_of_mem _ (List.mem_cons_self _ _)
  have hab0 := outcome_of_pair (mkWS [a, b]) k 0 1 0 hg1 hmem0ab
  have hab1 := outcome_of_pair (mkWS [a, b]) k 0 1 1 hg1 hmem1ab
  have hba0 := outcome_of_pair (mkWS [b, a]) k 0 1 0 hg2 hmem0ba
  have hba1 := outcome_of_pair (mkWS [b, a]) k 0 1 1 hg2 hmem1ba
  rw [hrow0ab, hrow1ab] at hab0 hab1
  rw [hrow0ba, hrow1ba] at hba0 hba1
  have hwd := pairRow_wd_first a b 0 1 h01 hca hcb
  have h3v := pairRow_3v_first b a 0 1 h01 hca hcb
  constructor
  · rw [hab0, hba1, (hwd a).1, (h3v a).1]
  · rw [hab1, hba0, (hwd b).2, (h3v b).2]

/-- Witness for C7 at the scenario-A records in both file orders. -/
theorem claim_C7_order_independence_witness :
    (process_duplicate_references (mkWS
        [⟨Option.some (strLit "REF1"), Option.some (strLit "WD"),
            Option.some (strLit "Pago proveedor")⟩,
         ⟨Option.some (strLit "REF1"), Option.some (strLit "3V"),
            Option.some (strLit "nota")⟩])).row 0 =
      (process_duplicate_references (mkWS
        [⟨Option.some (strLit "REF1"), Option.some (strLit "3V"),
            Option.some (strLit "nota")⟩,
         ⟨Option.some (strLit "REF1"), Option.some (strLit "WD"),
            Option.some (strLit "Pago proveedor")⟩])).row 1 ∧
    (process_duplicate_references (mkWS
        [⟨Option.some (strLit "REF1"), Option.some (strLit "WD"),
            Option.some (strLit "Pago proveedor")⟩,
         ⟨Option.some (strLit "REF1"), Option.some (strLit "3V"),
            Option.some (strLit "nota")⟩])).row 1 =
      (process_duplicate_references (mkWS
        [⟨Option.some (strLit "REF1"), Option.some (strLit "3V"),
            Option.some (strLit "nota")⟩,
         ⟨Option.some (strLit "REF1"), Option.some (strLit "WD"),
            Option.some (strLit "Pago proveedor")⟩])).row 0 :=
  claim_C7_order_independence
    ⟨Option.some (strLit "REF1"), Option.some (strLit "WD"),
        Option.some (strLit "Pago proveedor")⟩
    ⟨Option.some (strLit "REF1"), Option.some (strLit "3V"),
        Option.some (strLit "nota")⟩
    (strLit "REF1") (by decide) (by decide) (by decide) (by decide)

end FinanStar
